import Mathlib

/-
Verification development for the star chart generator.

The Python sources under src/star_chart_generator are shallowly embedded:
floating point values are modelled as real numbers, Python ints as ℤ,
mutation as functional update, and `for` loops as folds over explicit
range lists.  Library functions from the Python standard library
(zlib compression, the Mersenne Twister stream) are abstracted as
parameters of the definitions that consume them.
-/

noncomputable section

open Real

/-- Python `int(x)` applied to a float: truncation toward zero. -/
def pyInt (x : ℝ) : ℤ := if 0 ≤ x then ⌊x⌋ else ⌈x⌉

/-- Python `range(a, b)` as a list of integers (empty when `b ≤ a`). -/
def intRange (a b : ℤ) : List ℤ := (List.range (b - a).toNat).map (fun n => a + Int.ofNat n)

/-- In-place update of the `n`-th element of a list (no-op when out of range),
modelling assignment through a Python list reference. -/
def listModify {α : Type} (f : α → α) : ℕ → List α → List α
  | _, [] => []
  | 0, a :: as => f a :: as
  | n + 1, a :: as => a :: listModify f n as

/-- One RGB pixel of `FloatImage.pixels` (image.py): three linear-light
float channels, modelled as reals. -/
structure Pix where
  r : ℝ
  g : ℝ
  b : ℝ

def pixDefault : Pix := ⟨0, 0, 0⟩

/-- `FloatImage` (image.py): width, height and the row-major grid of pixels. -/
structure FloatImageL where
  width : ℤ
  height : ℤ
  pixels : List (List Pix)

namespace FloatImageL

/-- `FloatImage.new` (image.py line 20): a width×height grid filled with `fill`. -/
def new (width height : ℤ) (fill : ℝ) : FloatImageL :=
  { width := width, height := height,
    pixels := (List.range height.toNat).map (fun _ =>
      (List.range width.toNat).map (fun _ => ⟨fill, fill, fill⟩)) }

/-- `FloatImage.copy`: value semantics make this the identity in the embedding. -/
def copy (img : FloatImageL) : FloatImageL := img

/-- `FloatImage.add_pixel` (image.py line 32): add `color * intensity` into the
pixel at integer coordinates `(x, y)` when it lies inside the grid, else no-op. -/
def add_pixel (img : FloatImageL) (x y : ℤ) (color : Pix) (intensity : ℝ) : FloatImageL :=
  if 0 ≤ x ∧ x < img.width ∧ 0 ≤ y ∧ y < img.height then
    { img with pixels := listModify (listModify (fun p =>
        ⟨p.r + color.r * intensity, p.g + color.g * intensity,
         p.b + color.b * intensity⟩) x.toNat) y.toNat img.pixels }
  else img

/-- `FloatImage.get_pixel` (image.py line 39).  The Python code would raise on
out-of-range indices; the embedding returns a zero default there (no claim
depends on out-of-range reads). -/
def get_pixel (img : FloatImageL) (x y : ℤ) : Pix :=
  (img.pixels.getD y.toNat []).getD x.toNat pixDefault

/-- `FloatImage.add_gaussian` (image.py line 43): splat a Gaussian footprint,
clamping the affected pixel window to the grid. -/
def add_gaussian (img : FloatImageL) (cx cy sigma intensity : ℝ) (color : Pix) : FloatImageL :=
  if sigma ≤ 0 then img else
  let radius : ℤ := max 1 (pyInt (sigma * 3))
  let x0 : ℤ := max 0 (pyInt cx - radius)
  let x1 : ℤ := min img.width (pyInt cx + radius + 1)
  let y0 : ℤ := max 0 (pyInt cy - radius)
  let y1 : ℤ := min img.height (pyInt cy + radius + 1)
  let twoSigmaSq := 2 * sigma * sigma
  (intRange y0 y1).foldl (fun acc (y : ℤ) =>
    (intRange x0 x1).foldl (fun acc2 (x : ℤ) =>
      let dx : ℝ := (x : ℝ) - cx
      let dy : ℝ := (y : ℝ) - cy
      let value := Real.exp (-(dx * dx + dy * dy) / twoSigmaSq)
      acc2.add_pixel x y color (intensity * value)) acc) img

/-- `FloatImage.add_disc` (image.py line 59): stamp a filled disc, clamping the
affected pixel window to the grid. -/
def add_disc (img : FloatImageL) (cx cy radius : ℝ) (color : Pix) (intensity : ℝ) : FloatImageL :=
  let r2 := radius * radius
  let x0 : ℤ := max 0 (pyInt (cx - radius - 1))
  let x1 : ℤ := min img.width (pyInt (cx + radius + 2))
  let y0 : ℤ := max 0 (pyInt (cy - radius - 1))
  let y1 : ℤ := min img.height (pyInt (cy + radius + 2))
  (intRange y0 y1).foldl (fun acc (y : ℤ) =>
    (intRange x0 x1).foldl (fun acc2 (x : ℤ) =>
      let dx : ℝ := (x : ℝ) - cx
      let dy : ℝ := (y : ℝ) - cy
      if dx * dx + dy * dy ≤ r2 then acc2.add_pixel x y color intensity else acc2) acc) img

/-- `FloatImage.add_line` (image.py line 72): stamp discs along the segment from
`p0` to `p1`; a zero-length segment degenerates to a single disc. -/
def add_line (img : FloatImageL) (p0 p1 : ℝ × ℝ) (color : Pix) (width : ℤ) (intensity : ℝ) :
    FloatImageL :=
  let dx := p1.1 - p0.1
  let dy := p1.2 - p0.2
  let length := max |dx| |dy|
  if length = 0 then img.add_disc p0.1 p0.2 ((width : ℝ) * 0.5) color intensity
  else
    let steps : ℤ := pyInt length + 1
    (intRange 0 (steps + 1)).foldl (fun acc (i : ℤ) =>
      let t : ℝ := (i : ℝ) / ((max steps 1 : ℤ) : ℝ)
      let x := p0.1 + dx * t
      let y := p0.2 + dy * t
      acc.add_disc x y (max 0.5 ((width : ℝ) * 0.5)) color intensity) img

end FloatImageL

/-- The observable shape of an image buffer: its declared dimensions together
with the number of rows and the length of every row. -/
def imgShape (img : FloatImageL) : ℤ × ℤ × List ℕ :=
  (img.width, img.height, img.pixels.map List.length)

theorem length_listModify {α : Type} (f : α → α) (n : ℕ) (l : List α) :
    (listModify f n l).length = l.length := by
  induction l generalizing n with
  | nil => cases n <;> rfl
  | cons a as ih =>
    cases n with
    | zero => rfl
    | succ m => simpa [listModify] using ih m

theorem map_length_listModify_row (g : Pix → Pix) (m n : ℕ) (l : List (List Pix)) :
    (listModify (listModify g m) n l).map List.length = l.map List.length := by
  induction l generalizing n with
  | nil => cases n <;> rfl
  | cons a as ih =>
    cases n with
    | zero => simp [listModify, length_listModify]
    | succ k => simpa [listModify] using ih k

theorem add_pixel_shape (img : FloatImageL) (x y : ℤ) (c : Pix) (i : ℝ) :
    imgShape (img.add_pixel x y c i) = imgShape img := by
  unfold FloatImageL.add_pixel
  split
  · simp [imgShape, map_length_listModify_row]
  · rfl

theorem foldl_shape {α : Type} (f : FloatImageL → α → FloatImageL)
    (h : ∀ acc a, imgShape (f acc a) = imgShape acc) :
    ∀ (l : List α) (acc : FloatImageL), imgShape (l.foldl f acc) = imgShape acc := by
  intro l
  induction l with
  | nil => intro acc; rfl
  | cons a as ih => intro acc; rw [List.foldl_cons, ih, h]

theorem add_gaussian_shape (img : FloatImageL) (cx cy sigma intensity : ℝ) (c : Pix) :
    imgShape (img.add_gaussian cx cy sigma intensity c) = imgShape img := by
  unfold FloatImageL.add_gaussian
  split
  · rfl
  · exact foldl_shape _ (fun acc y =>
      foldl_shape _ (fun acc2 x => add_pixel_shape _ _ _ _ _) _ acc) _ img

theorem add_disc_shape (img : FloatImageL) (cx cy radius : ℝ) (c : Pix) (i : ℝ) :
    imgShape (img.add_disc cx cy radius c i) = imgShape img := by
  unfold FloatImageL.add_disc
  exact foldl_shape _ (fun acc y =>
    foldl_shape _ (fun acc2 x => by
      dsimp only
      split
      · exact add_pixel_shape _ _ _ _ _
      · rfl) _ acc) _ img

theorem add_line_shape (img : FloatImageL) (p0 p1 : ℝ × ℝ) (c : Pix) (w : ℤ) (i : ℝ) :
    imgShape (img.add_line p0 p1 c w i) = imgShape img := by
  unfold FloatImageL.add_line
  dsimp only
  split
  · exact add_disc_shape _ _ _ _ _ _
  · exact foldl_shape _ (fun acc j => add_disc_shape _ _ _ _ _ _) _ img

/-- C10: the four stamping primitives are total, preserve the buffer's width,
height and every row length, and `add_pixel` silently drops out-of-range
contributions (the grid-window clamping of the other three primitives is
captured by the shape invariance). -/
theorem C10_stamping_safety (img : FloatImageL) (x y : ℤ) (cx cy sigma radius intensity : ℝ)
    (p0 p1 : ℝ × ℝ) (c : Pix) (w : ℤ) :
    imgShape (img.add_pixel x y c intensity) = imgShape img ∧
    imgShape (img.add_gaussian cx cy sigma intensity c) = imgShape img ∧
    imgShape (img.add_disc cx cy radius c intensity) = imgShape img ∧
    imgShape (img.add_line p0 p1 c w intensity) = imgShape img ∧
    (¬ (0 ≤ x ∧ x < img.width ∧ 0 ≤ y ∧ y < img.height) →
      img.add_pixel x y c intensity = img) := by
  refine ⟨add_pixel_shape _ _ _ _ _, add_gaussian_shape _ _ _ _ _ _,
    add_disc_shape _ _ _ _ _ _, add_line_shape _ _ _ _ _ _, ?_⟩
  intro h
  unfold FloatImageL.add_pixel
  exact if_neg h

/-- Witness for C10 at a concrete buffer and a far out-of-range center. -/
theorem C10_witness :
    FloatImageL.add_pixel (FloatImageL.new 2 2 0) (-5) 100 pixDefault 1
      = FloatImageL.new 2 2 0 := by
  refine (C10_stamping_safety (FloatImageL.new 2 2 0) (-5) 100 0 0 0 0 1 (0, 0) (0, 0)
    pixDefault 1).2.2.2.2 ?_
  intro h
  have : (0 : ℤ) ≤ -5 := h.1
  norm_num at this

/-- `Resolution` (config.py line 17). -/
structure ResolutionL where
  width : ℤ
  height : ℤ
  ssaa : ℤ

/-- `Resolution.supersampled` (config.py line 25). -/
def ResolutionL.supersampled (r : ResolutionL) : ℤ × ℤ := (r.width * r.ssaa, r.height * r.ssaa)

/-- `Camera` (config.py line 30). -/
structure CameraL where
  pitch_deg : ℝ
  yaw_deg : ℝ
  fov_deg : ℝ
  z_near : ℝ
  z_far : ℝ

/-- `RingTickConfig` (config.py line 57). -/
structure RingTickConfigL where
  every_deg : List ℝ
  length_px : ℝ × ℝ
  alpha : ℝ
  weight : ℝ

/-- `RingConfig` (config.py line 67). -/
structure RingConfigL where
  r : ℝ
  width : ℝ
  color : String
  dash : Option (List ℝ)
  ticks_every_deg : Option ℝ
  label : Option String
  label_angle_deg : Option ℝ
  label_offset : ℝ
  glow : ℝ
  halo_color : Option String
  tick : Option RingTickConfigL

/-- Python `math.radians`: degrees to radians. -/
def radiansL (x : ℝ) : ℝ := x * (Real.pi / 180)

/-- `ProjectionParams` (camera.py line 12). -/
structure ProjectionParamsL where
  width : ℤ
  height : ℤ
  center_x : ℝ
  center_y : ℝ
  base_radius : ℝ
  focal_length : ℝ
  distance : ℝ
  unit_scale : ℝ
  pixel_to_radius : ℝ
  pitch : ℝ

/-- `ProjectionParams.project` (camera.py line 27): negative radii are clamped
to zero, and the perspective denominator is floored at `1e-5`. -/
def ProjectionParamsL.project (p : ProjectionParamsL) (radius angle : ℝ) : ℝ × ℝ × ℝ :=
  let radius := max 0 radius
  let x_world := Real.cos angle * radius * p.unit_scale
  let y_world := Real.sin angle * radius * p.unit_scale
  let y_prime := y_world * Real.cos p.pitch
  let z_prime := -y_world * Real.sin p.pitch
  let z_camera0 := p.distance - z_prime
  let z_camera := if z_camera0 ≤ 1e-5 then 1e-5 else z_camera0
  (p.center_x + p.focal_length * x_world / z_camera,
   p.center_y + p.focal_length * y_prime / z_camera,
   z_camera)

/-- `ProjectionParams.ellipse_parameters` (camera.py line 42). -/
def ProjectionParamsL.ellipse_parameters (p : ProjectionParamsL) (radius : ℝ) : ℝ × ℝ × ℝ :=
  if radius ≤ 0 then (p.center_y, 0, 0)
  else
    let side := p.project radius 0
    let near := p.project radius (Real.pi / 2)
    let far := p.project radius (-(Real.pi / 2))
    let center_y := (near.2.1 + far.2.1) * 0.5
    (center_y, |side.1 - p.center_x|, |near.2.1 - center_y|)

/-- The extent of one ring as used by `create_projection` (camera.py line 73). -/
def ringExtent (ring : RingConfigL) : ℝ := ring.r + max (ring.width * 0.75) 0

/-- The running-maximum loop of `create_projection` (camera.py lines 71-75). -/
def maxRingExtent (rings : List RingConfigL) : ℝ :=
  rings.foldl (fun m ring => if ringExtent ring > m then ringExtent ring else m) 0

/-- `create_projection` (camera.py line 56). -/
def create_projection (resolution : ResolutionL) (camera : CameraL)
    (rings : List RingConfigL) : ProjectionParamsL :=
  let wh := resolution.supersampled
  let width := wh.1
  let height := wh.2
  let center_x : ℝ := (width : ℝ) / 2
  let center_y : ℝ := (height : ℝ) / 2
  let base_radius : ℝ := ((min width height : ℤ) : ℝ) * 0.5 * 0.92
  let fov := max 1e-3 (radiansL camera.fov_deg)
  let focal_length := ((height : ℝ) / 2) / Real.tan (fov / 2)
  let distance := max (camera.z_near + 1e-3) camera.z_far
  let max_radius0 := maxRingExtent rings
  let max_radius := if max_radius0 ≤ 1e-6 then 1.0 else max_radius0
  let unit_scale := base_radius * distance / (focal_length * max_radius)
  let pixel_to_radius := distance / (focal_length * unit_scale)
  { width := width, height := height, center_x := center_x, center_y := center_y,
    base_radius := base_radius, focal_length := focal_length, distance := distance,
    unit_scale := unit_scale, pixel_to_radius := pixel_to_radius,
    pitch := radiansL camera.pitch_deg }

theorem project_depth_ge (p : ProjectionParamsL) (radius angle : ℝ) :
    1e-5 ≤ (p.project radius angle).2.2 := by
  unfold ProjectionParamsL.project
  dsimp only
  split
  · norm_num
  · linarith [not_le.mp (by assumption : ¬ _ ≤ (1e-5 : ℝ))]

/-- C5: for every projection built by `create_projection`, `project` is total,
its returned depth (the perspective denominator) is at least `1e-5`, and a
negative input radius behaves exactly like radius zero. -/
theorem C5_project_total_depth (resolution : ResolutionL) (camera : CameraL)
    (rings : List RingConfigL) (radius angle : ℝ) :
    1e-5 ≤ ((create_projection resolution camera rings).project radius angle).2.2 ∧
    (radius ≤ 0 →
      (create_projection resolution camera rings).project radius angle
        = (create_projection resolution camera rings).project 0 angle) := by
  refine ⟨project_depth_ge _ _ _, fun h => ?_⟩
  unfold ProjectionParamsL.project
  rw [max_eq_left h, max_eq_left le_rfl]

/-- Witness for C5 at a concrete camera and a negative radius. -/
theorem C5_witness :
    (create_projection ⟨100, 100, 1⟩ ⟨83, 0, 35, 0.1, 6⟩ []).project (-1) 0
      = (create_projection ⟨100, 100, 1⟩ ⟨83, 0, 35, 0.1, 6⟩ []).project 0 0 :=
  (C5_project_total_depth ⟨100, 100, 1⟩ ⟨83, 0, 35, 0.1, 6⟩ [] (-1) 0).2 (by norm_num)

/-- C6 (amended): when the projection's camera distance clears the `1e-5`
perspective floor and its focal length is nonzero, the largest ring extent
`R = maxRingExtent rings > 1e-6` projects at angle 0 exactly `base_radius`
pixels right of the screen center, and `base_radius` is 0.92 times half the
shorter supersampled dimension.  (The claim as frozen omits the camera
conditions; `C6_counterexample` shows they are necessary.) -/
theorem C6_largest_ring_fit (resolution : ResolutionL) (camera : CameraL)
    (rings : List RingConfigL)
    (hR : 1e-6 < maxRingExtent rings)
    (hd : 1e-5 < (create_projection resolution camera rings).distance)
    (hf : (create_projection resolution camera rings).focal_length ≠ 0) :
    ((create_projection resolution camera rings).project (maxRingExtent rings) 0).1
        - (create_projection resolution camera rings).center_x
      = (create_projection resolution camera rings).base_radius ∧
    (create_projection resolution camera rings).base_radius
      = 0.92 * ((min (resolution.width * resolution.ssaa)
          (resolution.height * resolution.ssaa) : ℤ) : ℝ) / 2 := by
  have hR0 : (0 : ℝ) < maxRingExtent rings := lt_trans (by norm_num) hR
  constructor
  · have hdist : (create_projection resolution camera rings).distance ≠ 0 := by positivity
    unfold ProjectionParamsL.project
    dsimp only
    rw [max_eq_right hR0.le]
    simp only [Real.cos_zero, Real.sin_zero, zero_mul, mul_zero, one_mul, neg_zero, sub_zero,
      zero_div, add_zero]
    rw [if_neg (not_le.mpr hd)]
    have hmr : (create_projection resolution camera rings).unit_scale
        = (create_projection resolution camera rings).base_radius
            * (create_projection resolution camera rings).distance
            / ((create_projection resolution camera rings).focal_length
                * maxRingExtent rings) := by
      show (create_projection resolution camera rings).unit_scale = _
      unfold create_projection
      dsimp only
      rw [if_neg (not_le.mpr hR)]
    rw [hmr]
    field_simp
    ring
  · unfold create_projection
    dsimp only [ResolutionL.supersampled]
    ring

/-- The concrete ring used in the C6 counterexample. -/
def c6Ring : RingConfigL :=
  { r := 1, width := 0, color := "#ffffff", dash := none, ticks_every_deg := none,
    label := none, label_angle_deg := none, label_offset := 0.015, glow := 1,
    halo_color := none, tick := none }

/-- The concrete degenerate-camera projection used in the C6 counterexample:
`z_near = -2`, `z_far = -1` give camera distance `-1`, making the `1e-5`
perspective floor fire. -/
def c6Proj : ProjectionParamsL :=
  create_projection ⟨100, 100, 1⟩ ⟨83, 0, 35, -2, -1⟩ [c6Ring]

/-- C6 counterexample: with a camera whose distance `max(z_near+1e-3, z_far)`
is negative (finite fields, largest ring extent 1 > 1e-6), the projected
largest extent does NOT land `base_radius` pixels from center: the depth
clamp puts it at `-46/1e-5 = -4.6e6` instead of `46`. -/
theorem C6_counterexample :
    (c6Proj.project (maxRingExtent [c6Ring]) 0).1 - c6Proj.center_x ≠ c6Proj.base_radius := by
  have hpi1 : (3.141592 : ℝ) < Real.pi := Real.pi_gt_d6
  have hpi2 : Real.pi < 3.15 := Real.pi_lt_d2
  have hfov : max ((1 : ℝ)/1000) (radiansL 35) = 35 * (Real.pi / 180) := by
    rw [radiansL, max_eq_right]
    nlinarith
  have hT : 0 < Real.tan (35 * (Real.pi / 180) / 2) := by
    apply Real.tan_pos_of_pos_of_lt_pi_div_two
    · nlinarith
    · nlinarith
  have hmr : maxRingExtent [c6Ring] = 1 := by
    unfold maxRingExtent ringExtent c6Ring
    norm_num
  have hdistance : max ((-2 : ℝ) + 1e-3) (-1) = -1 := by
    rw [max_eq_right (by norm_num : (-2 : ℝ) + 1e-3 ≤ -1)]
  rw [hmr]
  unfold c6Proj create_projection ProjectionParamsL.project
  dsimp only [ResolutionL.supersampled]
  rw [hmr]
  norm_num [hdistance, Real.cos_zero, Real.sin_zero]
  rw [hfov]
  have ha : (50 : ℝ) / Real.tan (35 * (Real.pi / 180) / 2) ≠ 0 :=
    div_ne_zero (by norm_num) (ne_of_gt hT)
  rw [mul_div_assoc', mul_comm, mul_div_assoc, div_self ha]
  norm_num

/-- Witness for the amended C6 at the default camera and a unit ring. -/
theorem C6_witness :
    ((create_projection ⟨100, 100, 1⟩ ⟨83, 0, 35, 0.1, 6⟩ [c6Ring]).project
        (maxRingExtent [c6Ring]) 0).1
        - (create_projection ⟨100, 100, 1⟩ ⟨83, 0, 35, 0.1, 6⟩ [c6Ring]).center_x
      = (create_projection ⟨100, 100, 1⟩ ⟨83, 0, 35, 0.1, 6⟩ [c6Ring]).base_radius := by
  refine (C6_largest_ring_fit ⟨100, 100, 1⟩ ⟨83, 0, 35, 0.1, 6⟩ [c6Ring] ?_ ?_ ?_).1
  · unfold maxRingExtent ringExtent c6Ring
    norm_num
  · show (1e-5 : ℝ) < (create_projection ⟨100, 100, 1⟩ ⟨83, 0, 35, 0.1, 6⟩ [c6Ring]).distance
    unfold create_projection
    dsimp only
    rw [max_eq_right (by norm_num : (0.1 : ℝ) + 1e-3 ≤ 6)]
    norm_num
  · show (create_projection ⟨100, 100, 1⟩ ⟨83, 0, 35, 0.1, 6⟩ [c6Ring]).focal_length ≠ 0
    unfold create_projection
    dsimp only [ResolutionL.supersampled]
    have hpi1 : (3.141592 : ℝ) < Real.pi := Real.pi_gt_d6
    have hpi2 : Real.pi < 3.15 := Real.pi_lt_d2
    have hfov : max (1e-3 : ℝ) (radiansL 35) = 35 * (Real.pi / 180) := by
      rw [radiansL, max_eq_right]
      nlinarith
    rw [hfov]
    have hT : 0 < Real.tan (35 * (Real.pi / 180) / 2) := by
      apply Real.tan_pos_of_pos_of_lt_pi_div_two
      · nlinarith
      · nlinarith
    exact div_ne_zero (by norm_num) (ne_of_gt hT)

/-- The space glyph of `FONT_DATA` (labels.py line 55), also the `.get` default. -/
def spaceGlyph : List String :=
  ["     ", "     ", "     ", "     ", "     ", "     ", "     "]

/-- `FONT_DATA` (labels.py lines 15-56) as a lookup function on its keys; any
other character maps to the space glyph, matching `FONT_DATA.get(..., FONT_DATA[" "])`. -/
def fontGlyph : Char → List String
  | 'A' => ["  #  ", " # # ", "#   #", "#####", "#   #", "#   #", "#   #"]
  | 'B' => ["#### ", "#   #", "#   #", "#### ", "#   #", "#   #", "#### "]
  | 'C' => [" ####", "#    ", "#    ", "#    ", "#    ", "#    ", " ####"]
  | 'D' => ["###  ", "#  # ", "#   #", "#   #", "#   #", "#  # ", "###  "]
  | 'E' => ["#####", "#    ", "#    ", "#### ", "#    ", "#    ", "#####"]
  | 'F' => ["#####", "#    ", "#    ", "#### ", "#    ", "#    ", "#    "]
  | 'G' => [" ### ", "#   #", "#    ", "# ###", "#   #", "#   #", " ### "]
  | 'H' => ["#   #", "#   #", "#   #", "#####", "#   #", "#   #", "#   #"]
  | 'I' => [" ### ", "  #  ", "  #  ", "  #  ", "  #  ", "  #  ", " ### "]
  | 'J' => ["  ###", "   #", "   #", "   #", "#  #", "#  #", " ## "]
  | 'K' => ["#   #", "#  # ", "# #  ", "##   ", "# #  ", "#  # ", "#   #"]
  | 'L' => ["#    ", "#    ", "#    ", "#    ", "#    ", "#    ", "#####"]
  | 'M' => ["#   #", "## ##", "# # #", "#   #", "#   #", "#   #", "#   #"]
  | 'N' => ["#   #", "##  #", "# # #", "#  ##", "#   #", "#   #", "#   #"]
  | 'O' => [" ### ", "#   #", "#   #", "#   #", "#   #", "#   #", " ### "]
  | 'P' => ["#### ", "#   #", "#   #", "#### ", "#    ", "#    ", "#    "]
  | 'Q' => [" ### ", "#   #", "#   #", "#   #", "# # #", "#  # ", " ## #"]
  | 'R' => ["#### ", "#   #", "#   #", "#### ", "# #  ", "#  # ", "#   #"]
  | 'S' => [" ####", "#    ", "#    ", " ### ", "    #", "    #", "#### "]
  | 'T' => ["#####", "  #  ", "  #  ", "  #  ", "  #  ", "  #  ", "  #  "]
  | 'U' => ["#   #", "#   #", "#   #", "#   #", "#   #", "#   #", " ### "]
  | 'V' => ["#   #", "#   #", "#   #", "#   #", " # # ", " # # ", "  #  "]
  | 'W' => ["#   #", "#   #", "#   #", "# # #", "# # #", "## ##", "#   #"]
  | 'X' => ["#   #", "#   #", " # # ", "  #  ", " # # ", "#   #", "#   #"]
  | 'Y' => ["#   #", "#   #", " # # ", "  #  ", "  #  ", "  #  ", "  #  "]
  | 'Z' => ["#####", "    #", "   # ", "  #  ", " #   ", "#    ", "#####"]
  | '0' => [" ### ", "#   #", "#  ##", "# # #", "##  #", "#   #", " ### "]
  | '1' => ["  #  ", " ##  ", "# #  ", "  #  ", "  #  ", "  #  ", "#####"]
  | '2' => [" ### ", "#   #", "    #", "   # ", "  #  ", " #   ", "#####"]
  | '3' => [" ### ", "#   #", "    #", "  ## ", "    #", "#   #", " ### "]
  | '4' => ["   # ", "  ## ", " # # ", "#  # ", "#####", "   # ", "   # "]
  | '5' => ["#####", "#    ", "#### ", "    #", "    #", "#   #", " ### "]
  | '6' => [" ### ", "#   #", "#    ", "#### ", "#   #", "#   #", " ### "]
  | '7' => ["#####", "    #", "   # ", "   # ", "  #  ", "  #  ", "  #  "]
  | '8' => [" ### ", "#   #", "#   #", " ### ", "#   #", "#   #", " ### "]
  | '9' => [" ### ", "#   #", "#   #", " ####", "    #", "#   #", " ### "]
  | '-' => ["     ", "     ", "     ", " ### ", "     ", "     ", "     "]
  | ':' => ["     ", "  #  ", "     ", "     ", "     ", "  #  ", "     "]
  | '.' => ["     ", "     ", "     ", "     ", "     ", "  ## ", "  ## "]
  | ' ' => ["     ", "     ", "     ", "     ", "     ", "     ", "     "]
  | _ => spaceGlyph

/-- `_glyph` (labels.py line 82): the dictionary lookup on the uppercased char. -/
def glyphOf (c : Char) : List String := fontGlyph c.toUpper

/-- The `max(len(row) for row in glyph)` of `_glyph_advance` (labels.py line 86). -/
def glyphMaxWidth (c : Char) : ℕ := ((glyphOf c).map String.length).foldl max 0

/-- `_glyph_advance` (labels.py line 86): one more than the widest glyph row. -/
def glyph_advance (c : Char) : ℝ := ((glyphMaxWidth c : ℕ) : ℝ) + 1

/-- `_text_advances` (labels.py line 92): per-glyph advances with `tracking/6`
added to all but the last glyph, floored at 0.4. -/
def text_advances (tracking : ℝ) : List Char → List ℝ
  | [] => []
  | [c] => [max 0.4 (glyph_advance c)]
  | c :: c2 :: rest => max 0.4 (glyph_advance c + tracking / 6) :: text_advances tracking (c2 :: rest)

/-- `_wrap` (labels.py line 102): `(angle + π) % (2π) − π` with Python's
sign-of-divisor float modulo. -/
def wrapAngle (x : ℝ) : ℝ :=
  (x + Real.pi) - 2 * Real.pi * ⌊(x + Real.pi) / (2 * Real.pi)⌋ - Real.pi

/-- `LabelSpec` (labels.py line 62).  The `alignment` and `baseline` fields are
Modelled from the spec: shapes.py passes them when constructing readout label
specs, but they are absent from the `LabelSpec` dataclass in src; spec section
4.4 describes start/center/end alignment and a linear baseline variant for
readouts.  They are carried but never consumed by the layout or drawing code
present in src. -/
structure LabelSpecL where
  ring_index : ℤ
  text : List Char
  center : ℝ × ℝ
  radius_x : ℝ
  radius_y : ℝ
  initial_angle : ℝ
  tracking : ℝ
  scale : ℝ
  alignment : String := "center"
  baseline : String := "arc"

/-- `LabelPlacement` (labels.py line 74). -/
structure LabelPlacementL where
  spec : LabelSpecL
  theta : ℝ
  arc_angle : ℝ
  advances : List ℝ

def specDefault : LabelSpecL :=
  { ring_index := 0, text := [], center := (0, 0), radius_x := 0, radius_y := 0,
    initial_angle := 0, tracking := 0, scale := 0 }

def placementDefault : LabelPlacementL :=
  { spec := specDefault, theta := 0, arc_angle := 0, advances := [] }

/-- The placement construction of `layout_labels` (labels.py lines 113-125). -/
def mkPlacement (spec : LabelSpecL) : LabelPlacementL :=
  let effective_radius := max ((spec.radius_x + spec.radius_y) * 0.5) 1
  let advances := text_advances spec.tracking spec.text
  let arc_length := advances.sum * spec.scale
  { spec := spec, theta := spec.initial_angle, arc_angle := arc_length / effective_radius,
    advances := advances }

/-- Assignment to `placement.theta`. -/
def setTheta (v : ℝ) (p : LabelPlacementL) : LabelPlacementL := { p with theta := v }

/-- One pairwise check/update of the relaxation loop (labels.py lines 138-147). -/
def pairStep (padding : ℝ) (l : List LabelPlacementL) (ij : ℕ × ℕ) :
    List LabelPlacementL × Bool :=
  let a := l.getD ij.1 placementDefault
  let b := l.getD ij.2 placementDefault
  let diff := wrapAngle (b.theta - a.theta)
  let min_sep := (a.arc_angle + b.arc_angle) * 0.5 + padding
  if |diff| < min_sep then
    let direction : ℝ := if 0 ≤ diff then 1 else -1
    let shift := (min_sep - |diff|) * 0.5
    (listModify (setTheta (b.theta + direction * shift)) ij.2
      (listModify (setTheta (a.theta - direction * shift)) ij.1 l), true)
  else (l, false)

/-- The index pairs `(i, j)`, `i < j`, visited by the nested loops of one pass
(labels.py lines 136-137), in visit order. -/
def pairIndices (n : ℕ) : List (ℕ × ℕ) :=
  (List.range n).flatMap (fun i => ((List.range n).filter (fun j => i < j)).map (fun j => (i, j)))

/-- The loop body of one pass: apply the pairwise step to the running list and
accumulate the `moved` flag. -/
def passStep (padding : ℝ) (acc : List LabelPlacementL × Bool) (ij : ℕ × ℕ) :
    List LabelPlacementL × Bool :=
  let r := pairStep padding acc.1 ij
  (r.1, acc.2 || r.2)

/-- One full pass of the relaxation loop (labels.py lines 135-147): fold the
pairwise step over all pairs, accumulating the `moved` flag. -/
def onePass (padding : ℝ) (l : List LabelPlacementL) : List LabelPlacementL × Bool :=
  (pairIndices l.length).foldl (passStep padding) (l, false)

/-- The bounded relaxation (labels.py lines 134-149): up to `fuel` passes with
early exit once a pass moves nothing. -/
def solveGroup (padding : ℝ) : ℕ → List LabelPlacementL → List LabelPlacementL
  | 0, l => l
  | fuel + 1, l =>
    let r := onePass padding l
    if r.2 then solveGroup padding fuel r.1 else r.1

/-- The final per-group angle wrap (labels.py lines 150-151). -/
def wrapThetas (l : List LabelPlacementL) : List LabelPlacementL :=
  l.map (fun p => { p with theta := wrapAngle p.theta })

/-- The ring keys in first-occurrence order: the insertion order of the
`by_ring` dict (labels.py lines 127-129). -/
def ringKeys (l : List LabelPlacementL) : List ℤ :=
  l.foldl (fun acc p => if p.spec.ring_index ∈ acc then acc else acc ++ [p.spec.ring_index]) []

/-- Write the solved group back over the full placement list: the `n`-th
element with ring index `k` becomes the `n`-th element of `solved`, modelling
the in-place mutation of the shared placement objects. -/
def scatterGroup (k : ℤ) : List LabelPlacementL → List LabelPlacementL → List LabelPlacementL
  | [], _ => []
  | p :: rest, solved =>
    if p.spec.ring_index = k then
      (solved.headD p) :: scatterGroup k rest solved.tail
    else
      p :: scatterGroup k rest solved

/-- Process one ring group (labels.py lines 131-151): groups of size ≤ 1 are
left untouched, larger ones are relaxed and their angles wrapped. -/
def processGroup (padding : ℝ) (iterations : ℕ) (l : List LabelPlacementL) (k : ℤ) :
    List LabelPlacementL :=
  let group := l.filter (fun p => p.spec.ring_index = k)
  if group.length ≤ 1 then l
  else scatterGroup k l (wrapThetas (solveGroup padding iterations group))

/-- `layout_labels` (labels.py line 106) with explicit `padding` and
`iterations` (source defaults 0.06 and 140).  The result is in input order,
matching the `ordered` reassembly for distinct spec objects. -/
def layout_labels (padding : ℝ) (iterations : ℕ) (specs : List LabelSpecL) :
    List LabelPlacementL :=
  let placements := specs.map mkPlacement
  (ringKeys placements).foldl (processGroup padding iterations) placements

theorem wrapAngle_eq (x : ℝ) (k : ℤ) (h1 : 2 * Real.pi * k ≤ x + Real.pi)
    (h2 : x + Real.pi < 2 * Real.pi * (k + 1)) : wrapAngle x = x - 2 * Real.pi * k := by
  have h2p : (0 : ℝ) < 2 * Real.pi := Real.two_pi_pos
  have hk : ⌊(x + Real.pi) / (2 * Real.pi)⌋ = k := by
    rw [Int.floor_eq_iff]
    constructor
    · rw [le_div_iff₀ h2p]
      linarith
    · rw [div_lt_iff₀ h2p]
      linarith
  rw [wrapAngle, hk]
  ring

theorem wrapAngle_add_two_pi_int (x : ℝ) (n : ℤ) :
    wrapAngle (x + 2 * Real.pi * n) = wrapAngle x := by
  unfold wrapAngle
  have h2p : (2 : ℝ) * Real.pi ≠ 0 := ne_of_gt Real.two_pi_pos
  have hdiv : (x + 2 * Real.pi * n + Real.pi) / (2 * Real.pi)
      = (x + Real.pi) / (2 * Real.pi) + n := by
    field_simp
    ring
  rw [hdiv, Int.floor_add_int]
  push_cast
  ring

/-- The wrapped difference of wrapped angles is the wrapped difference. -/
theorem wrapAngle_sub_wrap (t1 t2 : ℝ) :
    wrapAngle (wrapAngle t2 - wrapAngle t1) = wrapAngle (t2 - t1) := by
  have key : wrapAngle t2 - wrapAngle t1
      = (t2 - t1) + 2 * Real.pi * ((⌊(t1 + Real.pi) / (2 * Real.pi)⌋
          - ⌊(t2 + Real.pi) / (2 * Real.pi)⌋ : ℤ)) := by
    unfold wrapAngle
    push_cast
    ring
  rw [key, wrapAngle_add_two_pi_int]

/-- The overlap test of one pairwise step (labels.py line 142). -/
def overlapCond (padding : ℝ) (l : List LabelPlacementL) (ij : ℕ × ℕ) : Prop :=
  |wrapAngle ((l.getD ij.2 placementDefault).theta - (l.getD ij.1 placementDefault).theta)|
    < ((l.getD ij.1 placementDefault).arc_angle
        + (l.getD ij.2 placementDefault).arc_angle) * 0.5 + padding

theorem pairStep_of_not_overlap (padding : ℝ) (l : List LabelPlacementL) (ij : ℕ × ℕ)
    (h : ¬ overlapCond padding l ij) : pairStep padding l ij = (l, false) := by
  unfold overlapCond at h
  unfold pairStep
  dsimp only
  rw [if_neg h]

theorem not_overlap_of_pairStep_false (padding : ℝ) (l : List LabelPlacementL) (ij : ℕ × ℕ)
    (h : (pairStep padding l ij).2 = false) : ¬ overlapCond padding l ij := by
  intro hc
  unfold overlapCond at hc
  unfold pairStep at h
  dsimp only at h
  rw [if_pos hc] at h
  simp at h

theorem passStep_eq (padding : ℝ) (l : List LabelPlacementL) (b : Bool) (ij : ℕ × ℕ) :
    passStep padding (l, b) ij = ((pairStep padding l ij).1, b || (pairStep padding l ij).2) :=
  rfl

/-- Once the `moved` flag is set, the rest of a pass cannot clear it. -/
theorem pass_foldl_true (padding : ℝ) (ps : List (ℕ × ℕ)) (l : List LabelPlacementL) :
    (ps.foldl (passStep padding) (l, true)).2 = true := by
  induction ps generalizing l with
  | nil => rfl
  | cons ij ps ih =>
    rw [List.foldl_cons, passStep_eq]
    simpa using ih (pairStep padding l ij).1

/-- If a pass starting with a clear flag ends with it clear, no pair moved and
the list went through unchanged. -/
theorem pass_foldl_false (padding : ℝ) (ps : List (ℕ × ℕ)) (l : List LabelPlacementL)
    (h : (ps.foldl (passStep padding) (l, false)).2 = false) :
    (∀ ij ∈ ps, (pairStep padding l ij).2 = false) ∧
    (ps.foldl (passStep padding) (l, false)).1 = l := by
  induction ps generalizing l with
  | nil => exact ⟨by simp, rfl⟩
  | cons ij ps ih =>
    rw [List.foldl_cons, passStep_eq] at h ⊢
    by_cases hmv : (pairStep padding l ij).2 = true
    · rw [hmv] at h
      simp only [Bool.or_true] at h
      rw [pass_foldl_true padding ps _] at h
      exact absurd h (by simp)
    · have hmv' : (pairStep padding l ij).2 = false := by
        revert hmv
        cases (pairStep padding l ij).2 <;> simp
      have hfst : (pairStep padding l ij).1 = l := by
        rw [pairStep_of_not_overlap padding l ij (not_overlap_of_pairStep_false padding l ij hmv')]
      rw [hmv', hfst] at h ⊢
      simp only [Bool.or_false] at h ⊢
      rcases ih l h with ⟨hall, hfix⟩
      refine ⟨?_, hfix⟩
      intro kl hkl
      rcases List.mem_cons.mp hkl with hkl | hkl
      · rw [hkl]
        exact hmv'
      · exact hall kl hkl

theorem mem_pairIndices {n i j : ℕ} (hij : i < j) (hj : j < n) : (i, j) ∈ pairIndices n := by
  unfold pairIndices
  rw [List.mem_flatMap]
  refine ⟨i, List.mem_range.mpr (lt_trans hij hj), ?_⟩
  rw [List.mem_map]
  exact ⟨j, List.mem_filter.mpr ⟨List.mem_range.mpr hj, by simpa using hij⟩, rfl⟩

/-- C3 (amended): if the relaxation reaches a pass that moves nothing within
its iteration budget, then after the final wrap every pair of the group is
separated by at least half the sum of its arc angles plus the padding (in
wrapped angular distance).  `C3_counterexample` shows the unconditional claim
fails when the budget runs out before convergence. -/
theorem C3_separated_if_converged (padding : ℝ) (iterations : ℕ)
    (group : List LabelPlacementL)
    (hconv : (onePass padding (solveGroup padding iterations group)).2 = false) :
    ∀ i j, i < j → j < (wrapThetas (solveGroup padding iterations group)).length →
      ((wrapThetas (solveGroup padding iterations group)).getD i placementDefault).arc_angle
          * 0.5
        + ((wrapThetas (solveGroup padding iterations group)).getD j placementDefault).arc_angle
          * 0.5 + padding
      ≤ |wrapAngle
          (((wrapThetas (solveGroup padding iterations group)).getD j placementDefault).theta
            - ((wrapThetas (solveGroup padding iterations group)).getD i
                placementDefault).theta)| := by
  intro i j hij hj
  set r := solveGroup padding iterations group with hr
  have hjr : j < r.length := by
    simpa [wrapThetas] using hj
  have hir : i < r.length := lt_trans hij hjr
  have hmem : (i, j) ∈ pairIndices r.length := mem_pairIndices hij hjr
  have hfalse := (pass_foldl_false padding (pairIndices r.length) r hconv).1 (i, j) hmem
  have hno := not_overlap_of_pairStep_false padding r (i, j) hfalse
  unfold overlapCond at hno
  dsimp only at hno
  have hgi : (wrapThetas r).getD i placementDefault
      = { r.getD i placementDefault with
          theta := wrapAngle (r.getD i placementDefault).theta } := by
    unfold wrapThetas
    rw [List.getD_eq_getElem?_getD, List.getElem?_map, List.getD_eq_getElem?_getD,
      List.getElem?_eq_getElem hir]
    rfl
  have hgj : (wrapThetas r).getD j placementDefault
      = { r.getD j placementDefault with
          theta := wrapAngle (r.getD j placementDefault).theta } := by
    unfold wrapThetas
    rw [List.getD_eq_getElem?_getD, List.getElem?_map, List.getD_eq_getElem?_getD,
      List.getElem?_eq_getElem hjr]
    rfl
  rw [hgi, hgj]
  dsimp only
  rw [wrapAngle_sub_wrap]
  push_neg at hno
  linarith [hno]

theorem pairIndices_two : pairIndices 2 = [(0, 1)] := by decide

/-- The already-separated two-label group used as the C3 witness. -/
def c3WitnessGroup : List LabelPlacementL :=
  [{ spec := specDefault, theta := 0, arc_angle := 0, advances := [] },
   { spec := specDefault, theta := 3, arc_angle := 0, advances := [] }]

theorem c3_wrap_three : wrapAngle 3 = 3 := by
  have hpi : (3 : ℝ) < Real.pi := by
    have := Real.pi_gt_d6
    linarith
  have h := wrapAngle_eq 3 0 (by push_cast; nlinarith [Real.pi_pos])
    (by push_cast; nlinarith)
  simpa using h

theorem c3Witness_not_overlap : ¬ overlapCond 0.06 c3WitnessGroup (0, 1) := by
  unfold overlapCond c3WitnessGroup
  simp only [List.getD_cons_zero, List.getD_cons_succ]
  simp only [show (3 : ℝ) - 0 = 3 by norm_num, c3_wrap_three]
  rw [abs_of_nonneg (by norm_num : (0 : ℝ) ≤ 3)]
  norm_num

theorem c3Witness_onePass : onePass 0.06 c3WitnessGroup = (c3WitnessGroup, false) := by
  unfold onePass
  rw [show c3WitnessGroup.length = 2 from rfl, pairIndices_two, List.foldl_cons, passStep_eq,
    pairStep_of_not_overlap 0.06 c3WitnessGroup (0, 1) c3Witness_not_overlap, List.foldl_nil]
  rfl

/-- Witness for the amended C3: a converged two-label group satisfies the
pairwise separation bound. -/
theorem C3_witness :
    ((wrapThetas (solveGroup 0.06 0 c3WitnessGroup)).getD 0 placementDefault).arc_angle * 0.5
      + ((wrapThetas (solveGroup 0.06 0 c3WitnessGroup)).getD 1 placementDefault).arc_angle * 0.5
      + 0.06
    ≤ |wrapAngle
        (((wrapThetas (solveGroup 0.06 0 c3WitnessGroup)).getD 1 placementDefault).theta
          - ((wrapThetas (solveGroup 0.06 0 c3WitnessGroup)).getD 0 placementDefault).theta)| :=
  C3_separated_if_converged 0.06 0 c3WitnessGroup
    (by rw [show solveGroup 0.06 0 c3WitnessGroup = c3WitnessGroup from rfl, c3Witness_onePass])
    0 1 (by norm_num)
    (by rw [show solveGroup 0.06 0 c3WitnessGroup = c3WitnessGroup from rfl]
        simp [wrapThetas, c3WitnessGroup])

/-- The label spec of the C3 counterexample: two 'A' glyphs on a unit anchor
ellipse, giving arc angle 12 (more than a full turn). -/
def c3Spec : LabelSpecL :=
  { ring_index := 0, text := ['A', 'A'], center := (0, 0), radius_x := 1, radius_y := 1,
    initial_angle := 0, tracking := 0, scale := 1 }

/-- The placements occurring while laying out two `c3Spec` labels. -/
def c3P (t : ℝ) : LabelPlacementL :=
  { spec := c3Spec, theta := t, arc_angle := 12, advances := [6, 6] }

theorem glyphMaxWidth_A : glyphMaxWidth 'A' = 5 := by decide

theorem glyph_advance_A : glyph_advance 'A' = 6 := by
  rw [glyph_advance, glyphMaxWidth_A]
  norm_num

theorem text_advances_c3 : text_advances 0 ['A', 'A'] = [6, 6] := by
  rw [text_advances, text_advances, glyph_advance_A]
  rw [show (6 : ℝ) + 0 / 6 = 6 by norm_num]
  rw [max_eq_right (by norm_num : (0.4 : ℝ) ≤ 6)]

theorem mkPlacement_c3Spec : mkPlacement c3Spec = c3P 0 := by
  unfold mkPlacement c3P c3Spec
  dsimp only
  rw [text_advances_c3]
  norm_num [max_eq_right]

theorem c3_wrap_zero : wrapAngle 0 = 0 := by
  have h := wrapAngle_eq 0 0 (by push_cast; nlinarith [Real.pi_pos])
    (by push_cast; nlinarith [Real.pi_pos])
  simpa using h

theorem c3_wrap_big : wrapAngle 12.06 = 12.06 - 4 * Real.pi := by
  have hpi1 : (3.141592 : ℝ) < Real.pi := Real.pi_gt_d6
  have hpi2 : Real.pi < 3.15 := Real.pi_lt_d2
  have h := wrapAngle_eq 12.06 2 (by push_cast; nlinarith) (by push_cast; nlinarith)
  rw [h]
  push_cast
  ring

theorem c3_wrap_small : wrapAngle (4 * Real.pi - 12.06) = 4 * Real.pi - 12.06 := by
  have hpi1 : (3.141592 : ℝ) < Real.pi := Real.pi_gt_d6
  have hpi2 : Real.pi < 3.15 := Real.pi_lt_d2
  have h := wrapAngle_eq (4 * Real.pi - 12.06) 0 (by push_cast; nlinarith)
    (by push_cast; nlinarith)
  simpa using h

theorem c3_wrap_fix_a : wrapAngle (6.03 - 2 * Real.pi) = 6.03 - 2 * Real.pi := by
  have hpi1 : (3.141592 : ℝ) < Real.pi := Real.pi_gt_d6
  have hpi2 : Real.pi < 3.15 := Real.pi_lt_d2
  have h := wrapAngle_eq (6.03 - 2 * Real.pi) 0 (by push_cast; nlinarith)
    (by push_cast; nlinarith)
  simpa using h

theorem c3_wrap_fix_b : wrapAngle (2 * Real.pi - 6.03) = 2 * Real.pi - 6.03 := by
  have hpi1 : (3.141592 : ℝ) < Real.pi := Real.pi_gt_d6
  have hpi2 : Real.pi < 3.15 := Real.pi_lt_d2
  have h := wrapAngle_eq (2 * Real.pi - 6.03) 0 (by push_cast; nlinarith)
    (by push_cast; nlinarith)
  simpa using h

theorem c3_step0 : pairStep 0.06 [c3P 0, c3P 0] (0, 1) = ([c3P (-6.03), c3P 6.03], true) := by
  unfold pairStep
  simp only [List.getD_cons_zero, List.getD_cons_succ]
  dsimp only [c3P]
  simp only [show (0 : ℝ) - 0 = 0 by norm_num, c3_wrap_zero, abs_of_nonneg (le_refl (0 : ℝ))]
  rw [if_pos (by norm_num : (0 : ℝ) < (12 + 12) * 0.5 + 0.06)]
  rw [if_pos (le_refl (0 : ℝ))]
  simp only [listModify, setTheta]
  norm_num

theorem c3_step1 : pairStep 0.06 [c3P (-6.03), c3P 6.03] (0, 1)
    = ([c3P (6.03 - 2 * Real.pi), c3P (2 * Real.pi - 6.03)], true) := by
  have hpi1 : (3.141592 : ℝ) < Real.pi := Real.pi_gt_d6
  have hpi2 : Real.pi < 3.15 := Real.pi_lt_d2
  unfold pairStep
  simp only [List.getD_cons_zero, List.getD_cons_succ]
  dsimp only [c3P]
  simp only [show (6.03 : ℝ) - -6.03 = 12.06 by norm_num, c3_wrap_big,
    abs_of_neg (show (12.06 : ℝ) - 4 * Real.pi < 0 by nlinarith)]
  rw [if_pos (by nlinarith : -((12.06 : ℝ) - 4 * Real.pi) < (12 + 12) * 0.5 + 0.06)]
  rw [if_neg (not_le.mpr (by nlinarith : (12.06 : ℝ) - 4 * Real.pi < 0))]
  simp only [listModify, setTheta]
  norm_num
  constructor <;> ring

theorem c3_step2 : pairStep 0.06 [c3P (6.03 - 2 * Real.pi), c3P (2 * Real.pi - 6.03)] (0, 1)
    = ([c3P (-6.03), c3P 6.03], true) := by
  have hpi1 : (3.141592 : ℝ) < Real.pi := Real.pi_gt_d6
  have hpi2 : Real.pi < 3.15 := Real.pi_lt_d2
  unfold pairStep
  simp only [List.getD_cons_zero, List.getD_cons_succ]
  dsimp only [c3P]
  simp only [show (2 * Real.pi - 6.03) - (6.03 - 2 * Real.pi) = 4 * Real.pi - 12.06 by ring,
    c3_wrap_small, abs_of_nonneg (show (0 : ℝ) ≤ 4 * Real.pi - 12.06 by nlinarith)]
  rw [if_pos (by nlinarith : (4 : ℝ) * Real.pi - 12.06 < (12 + 12) * 0.5 + 0.06)]
  rw [if_pos (by nlinarith : (0 : ℝ) ≤ 4 * Real.pi - 12.06)]
  simp only [listModify, setTheta]
  norm_num
  constructor <;> ring

theorem c3_onePass0 : onePass 0.06 [c3P 0, c3P 0] = ([c3P (-6.03), c3P 6.03], true) := by
  unfold onePass
  rw [show ([c3P 0, c3P 0] : List LabelPlacementL).length = 2 from rfl, pairIndices_two,
    List.foldl_cons, passStep_eq, c3_step0, List.foldl_nil]
  rfl

theorem c3_onePass1 : onePass 0.06 [c3P (-6.03), c3P 6.03]
    = ([c3P (6.03 - 2 * Real.pi), c3P (2 * Real.pi - 6.03)], true) := by
  unfold onePass
  rw [show ([c3P (-6.03), c3P 6.03] : List LabelPlacementL).length = 2 from rfl, pairIndices_two,
    List.foldl_cons, passStep_eq, c3_step1, List.foldl_nil]
  rfl

theorem c3_onePass2 : onePass 0.06 [c3P (6.03 - 2 * Real.pi), c3P (2 * Real.pi - 6.03)]
    = ([c3P (-6.03), c3P 6.03], true) := by
  unfold onePass
  rw [show ([c3P (6.03 - 2 * Real.pi), c3P (2 * Real.pi - 6.03)] :
      List LabelPlacementL).length = 2 from rfl, pairIndices_two,
    List.foldl_cons, passStep_eq, c3_step2, List.foldl_nil]
  rfl

theorem solveGroup_succ (padding : ℝ) (fuel : ℕ) (l : List LabelPlacementL) :
    solveGroup padding (fuel + 1) l
      = if (onePass padding l).2 then solveGroup padding fuel (onePass padding l).1
        else (onePass padding l).1 := rfl

theorem c3_cycle (k : ℕ) :
    solveGroup 0.06 (2 * k) [c3P (-6.03), c3P 6.03] = [c3P (-6.03), c3P 6.03] ∧
    solveGroup 0.06 (2 * k) [c3P (6.03 - 2 * Real.pi), c3P (2 * Real.pi - 6.03)]
      = [c3P (6.03 - 2 * Real.pi), c3P (2 * Real.pi - 6.03)] := by
  induction k with
  | zero => exact ⟨rfl, rfl⟩
  | succ k ih =>
    constructor
    · rw [show 2 * (k + 1) = (2 * k + 1) + 1 by ring, solveGroup_succ, c3_onePass1]
      simp only [if_true]
      rw [solveGroup_succ, c3_onePass2]
      simp only [if_true]
      exact ih.1
    · rw [show 2 * (k + 1) = (2 * k + 1) + 1 by ring, solveGroup_succ, c3_onePass2]
      simp only [if_true]
      rw [solveGroup_succ, c3_onePass1]
      simp only [if_true]
      exact ih.2

theorem c3_solve140 : solveGroup 0.06 140 [c3P 0, c3P 0]
    = [c3P (6.03 - 2 * Real.pi), c3P (2 * Real.pi - 6.03)] := by
  rw [show (140 : ℕ) = 139 + 1 by norm_num, solveGroup_succ, c3_onePass0]
  simp only [if_true]
  rw [show (139 : ℕ) = 138 + 1 by norm_num, solveGroup_succ, c3_onePass1]
  simp only [if_true]
  rw [show (138 : ℕ) = 2 * 69 by norm_num]
  exact (c3_cycle 69).2

theorem c3_wrapThetas :
    wrapThetas [c3P (6.03 - 2 * Real.pi), c3P (2 * Real.pi - 6.03)]
      = [c3P (6.03 - 2 * Real.pi), c3P (2 * Real.pi - 6.03)] := by
  unfold wrapThetas
  simp only [List.map_cons, List.map_nil]
  dsimp only [c3P]
  rw [c3_wrap_fix_a, c3_wrap_fix_b]

theorem c3_scatter (a b : ℝ) :
    scatterGroup 0 [c3P 0, c3P 0] [c3P a, c3P b] = [c3P a, c3P b] := by
  unfold scatterGroup
  simp [c3P, c3Spec, scatterGroup]

theorem c3_layout : layout_labels 0.06 140 [c3Spec, c3Spec]
    = [c3P (6.03 - 2 * Real.pi), c3P (2 * Real.pi - 6.03)] := by
  unfold layout_labels
  dsimp only
  rw [List.map_cons, List.map_cons, List.map_nil, mkPlacement_c3Spec]
  have hkeys : ringKeys [c3P 0, c3P 0] = [0] := by
    unfold ringKeys
    simp [c3P, c3Spec]
  rw [hkeys, List.foldl_cons, List.foldl_nil]
  unfold processGroup
  have hfil : List.filter (fun p => p.spec.ring_index = 0) [c3P 0, c3P 0] = [c3P 0, c3P 0] := by
    simp [List.filter, c3P, c3Spec]
  rw [hfil]
  rw [if_neg (by norm_num)]
  rw [c3_solve140, c3_wrapThetas, c3_scatter]

/-- C3 counterexample: two identical labels with text "AA" on unit anchor
radii share ring 0 and start at angle 0; each has arc angle 12, so the
required separation 12.06 exceeds π and the relaxation two-cycles until its
140-pass budget is exhausted.  The returned pair is separated by only
`4π − 12.06 ≈ 0.51`, strictly less than `(arc_a + arc_b)/2 + 0.06 = 12.06`,
refuting the claim's unconditional separation bound. -/
theorem C3_counterexample :
    |wrapAngle (((layout_labels 0.06 140 [c3Spec, c3Spec]).getD 1 placementDefault).theta
        - ((layout_labels 0.06 140 [c3Spec, c3Spec]).getD 0 placementDefault).theta)|
      < (((layout_labels 0.06 140 [c3Spec, c3Spec]).getD 0 placementDefault).arc_angle
          + ((layout_labels 0.06 140 [c3Spec, c3Spec]).getD 1 placementDefault).arc_angle)
          * 0.5 + 0.06 := by
  have hpi1 : (3.141592 : ℝ) < Real.pi := Real.pi_gt_d6
  have hpi2 : Real.pi < 3.15 := Real.pi_lt_d2
  rw [c3_layout]
  simp only [List.getD_cons_zero, List.getD_cons_succ]
  dsimp only [c3P]
  rw [show (2 * Real.pi - 6.03) - (6.03 - 2 * Real.pi) = 4 * Real.pi - 12.06 by ring,
    c3_wrap_small]
  rw [abs_of_nonneg (by nlinarith : (0 : ℝ) ≤ 4 * Real.pi - 12.06)]
  nlinarith

/-- The theta-independent part of a placement: its spec, arc angle and
advances. -/
def shapeP (p : LabelPlacementL) : LabelSpecL × ℝ × List ℝ := (p.spec, p.arc_angle, p.advances)

theorem map_shapeP_listModify_setTheta (v : ℝ) (n : ℕ) (l : List LabelPlacementL) :
    (listModify (setTheta v) n l).map shapeP = l.map shapeP := by
  induction l generalizing n with
  | nil => cases n <;> rfl
  | cons p rest ih =>
    cases n with
    | zero => simp [listModify, setTheta, shapeP]
    | succ m => simpa [listModify] using ih m

theorem map_shapeP_pairStep (padding : ℝ) (l : List LabelPlacementL) (ij : ℕ × ℕ) :
    (pairStep padding l ij).1.map shapeP = l.map shapeP := by
  unfold pairStep
  dsimp only
  split
  · dsimp only
    rw [map_shapeP_listModify_setTheta, map_shapeP_listModify_setTheta]
  · rfl

theorem map_shapeP_pass (padding : ℝ) (ps : List (ℕ × ℕ)) :
    ∀ (l : List LabelPlacementL) (b : Bool),
      (ps.foldl (passStep padding) (l, b)).1.map shapeP = l.map shapeP := by
  induction ps with
  | nil => intro l b; rfl
  | cons ij ps ih =>
    intro l b
    rw [List.foldl_cons, passStep_eq, ih, map_shapeP_pairStep]

theorem map_shapeP_onePass (padding : ℝ) (l : List LabelPlacementL) :
    (onePass padding l).1.map shapeP = l.map shapeP :=
  map_shapeP_pass padding (pairIndices l.length) l false

theorem map_shapeP_solveGroup (padding : ℝ) (fuel : ℕ) :
    ∀ l : List LabelPlacementL, (solveGroup padding fuel l).map shapeP = l.map shapeP := by
  induction fuel with
  | zero => intro l; rfl
  | succ fuel ih =>
    intro l
    rw [solveGroup_succ]
    split
    · rw [ih, map_shapeP_onePass]
    · exact map_shapeP_onePass padding l

theorem map_shapeP_wrapThetas (l : List LabelPlacementL) :
    (wrapThetas l).map shapeP = l.map shapeP := by
  unfold wrapThetas
  rw [List.map_map]
  rfl

theorem map_shapeP_scatterGroup (k : ℤ) :
    ∀ (l solved : List LabelPlacementL),
      solved.map shapeP = (l.filter (fun p => p.spec.ring_index = k)).map shapeP →
      (scatterGroup k l solved).map shapeP = l.map shapeP := by
  intro l
  induction l with
  | nil => intro solved h; rfl
  | cons p rest ih =>
    intro solved h
    by_cases hpk : p.spec.ring_index = k
    · rw [List.filter_cons_of_pos (by simpa using hpk)] at h
      cases solved with
      | nil => simp at h
      | cons q qs =>
        rw [List.map_cons, List.map_cons, List.cons.injEq] at h
        unfold scatterGroup
        rw [if_pos hpk]
        simp only [List.headD_cons, List.tail_cons, List.map_cons]
        rw [h.1, ih qs h.2]
    · rw [List.filter_cons_of_neg (by simpa using hpk)] at h
      unfold scatterGroup
      rw [if_neg hpk]
      simp only [List.map_cons]
      rw [ih solved h]

theorem map_shapeP_processGroup (padding : ℝ) (iterations : ℕ) (l : List LabelPlacementL)
    (k : ℤ) : (processGroup padding iterations l k).map shapeP = l.map shapeP := by
  unfold processGroup
  dsimp only
  split
  · rfl
  · exact map_shapeP_scatterGroup k l _
      (by rw [map_shapeP_wrapThetas, map_shapeP_solveGroup])

theorem map_shapeP_foldl_groups (padding : ℝ) (iterations : ℕ) (keys : List ℤ) :
    ∀ l : List LabelPlacementL,
      (keys.foldl (processGroup padding iterations) l).map shapeP = l.map shapeP := by
  induction keys with
  | nil => intro l; rfl
  | cons k keys ih =>
    intro l
    rw [List.foldl_cons, ih, map_shapeP_processGroup]

theorem map_shapeP_layout (padding : ℝ) (iterations : ℕ) (specs : List LabelSpecL) :
    (layout_labels padding iterations specs).map shapeP = (specs.map mkPlacement).map shapeP := by
  unfold layout_labels
  dsimp only
  rw [map_shapeP_foldl_groups]

theorem getD_map_of_lt {α β : Type} (f : α → β) (l : List α) (i : ℕ) (h : i < l.length)
    (d : α) (e : β) : (l.map f).getD i e = f (l.getD i d) := by
  rw [List.getD_eq_getElem?_getD, List.getElem?_map, List.getElem?_eq_getElem h,
    List.getD_eq_getElem?_getD, List.getElem?_eq_getElem h]
  rfl

/-- C8 (amended): every placement returned by `layout_labels` carries the arc
angle `sum(_text_advances(text, tracking)) * scale / max((radius_x+radius_y)/2, 1)`
— the advances add `tracking/6` to every glyph but the last and floor each at
0.4, the whole sum is scaled, and the mean anchor radius is clamped below by 1.
The layout passes never change it.  (`C8_counterexample` refutes the frozen
claim's formula `Σ(glyph_advance*scale + tracking) / mean-radius`.) -/
theorem C8_arc_angle_formula (padding : ℝ) (iterations : ℕ) (specs : List LabelSpecL)
    (i : ℕ) (hi : i < specs.length) :
    ((layout_labels padding iterations specs).getD i placementDefault).arc_angle
      = (text_advances (specs.getD i specDefault).tracking (specs.getD i specDefault).text).sum
          * (specs.getD i specDefault).scale
          / max (((specs.getD i specDefault).radius_x
              + (specs.getD i specDefault).radius_y) * 0.5) 1 := by
  have hlen : (layout_labels padding iterations specs).length = specs.length := by
    have := congrArg List.length (map_shapeP_layout padding iterations specs)
    simpa using this
  have hi' : i < (layout_labels padding iterations specs).length := by
    rw [hlen]; exact hi
  have hmap := congrArg (fun l => l.getD i (shapeP placementDefault))
    (map_shapeP_layout padding iterations specs)
  dsimp only at hmap
  rw [getD_map_of_lt shapeP _ i hi' placementDefault,
    getD_map_of_lt shapeP _ i (by simpa using hi) placementDefault] at hmap
  have harc := congrArg (fun q => q.2.1) hmap
  dsimp only [shapeP] at harc
  rw [harc]
  rw [getD_map_of_lt mkPlacement specs i hi specDefault]
  rfl

/-- The angular footprint formula exactly as worded in claim C8: the sum over
the label's glyphs of `glyph_advance * scale + tracking`, divided by the
unclamped mean of the anchor ellipse's two radii. -/
def claimedArcAngle (spec : LabelSpecL) : ℝ :=
  (spec.text.map (fun c => glyph_advance c * spec.scale + spec.tracking)).sum
    / ((spec.radius_x + spec.radius_y) / 2)

/-- The label spec of the C8 counterexample: two glyphs, tracking 6, mean
anchor radius 3. -/
def c8Spec : LabelSpecL :=
  { ring_index := 0, text := ['A', 'B'], center := (0, 0), radius_x := 3, radius_y := 3,
    initial_angle := 0, tracking := 6, scale := 1 }

theorem glyphMaxWidth_B : glyphMaxWidth 'B' = 5 := by decide

theorem glyph_advance_B : glyph_advance 'B' = 6 := by
  rw [glyph_advance, glyphMaxWidth_B]
  norm_num

theorem c8_layout : layout_labels 0.06 140 [c8Spec] = [mkPlacement c8Spec] := by
  unfold layout_labels
  dsimp only
  rw [List.map_cons, List.map_nil]
  have hkeys : ringKeys [mkPlacement c8Spec] = [0] := by
    simp [ringKeys, mkPlacement, c8Spec]
  rw [hkeys, List.foldl_cons, List.foldl_nil]
  unfold processGroup
  dsimp only
  rw [if_pos]
  simp [mkPlacement, c8Spec, List.filter]

/-- C8 counterexample: for the label "AB" with tracking 6, scale 1 and anchor
radii 3, the implementation computes arc angle `(7 + 6)/3 = 13/3` (tracking/6
on the first glyph only, clamped mean radius), while the claim's formula gives
`((6+6) + (6+6)) / 3 = 8`. -/
theorem C8_counterexample :
    ((layout_labels 0.06 140 [c8Spec]).getD 0 placementDefault).arc_angle
      ≠ claimedArcAngle c8Spec := by
  rw [c8_layout]
  rw [show ([mkPlacement c8Spec] : List LabelPlacementL).getD 0 placementDefault
      = mkPlacement c8Spec from rfl]
  unfold mkPlacement claimedArcAngle c8Spec
  dsimp only
  rw [text_advances, text_advances, glyph_advance_A, glyph_advance_B]
  rw [List.map_cons, List.map_cons, List.map_nil, glyph_advance_A, glyph_advance_B]
  rw [max_eq_right (by norm_num : (0.4 : ℝ) ≤ 6 + 6 / 6),
    max_eq_right (by norm_num : (0.4 : ℝ) ≤ 6)]
  norm_num

/-- Witness for the amended C8 at the concrete spec of the counterexample. -/
theorem C8_witness :
    ((layout_labels 0.06 140 [c8Spec]).getD 0 placementDefault).arc_angle
      = (text_advances (([c8Spec] : List LabelSpecL).getD 0 specDefault).tracking
            (([c8Spec] : List LabelSpecL).getD 0 specDefault).text).sum
          * (([c8Spec] : List LabelSpecL).getD 0 specDefault).scale
          / max (((([c8Spec] : List LabelSpecL).getD 0 specDefault).radius_x
              + (([c8Spec] : List LabelSpecL).getD 0 specDefault).radius_y) * 0.5) 1 :=
  C8_arc_angle_formula 0.06 140 [c8Spec] 0 (by norm_num)

theorem pyInt_intCast (n : ℤ) : pyInt (n : ℝ) = n := by
  unfold pyInt
  split
  · exact Int.floor_intCast n
  · exact Int.ceil_intCast n

/-- `FloatImage.sample` (image.py line 186): clamped nearest pixel on the
boundary band, bilinear interpolation in the interior. -/
def FloatImageL.sample (img : FloatImageL) (x y : ℝ) : Pix :=
  if x < 0 ∨ x ≥ (img.width : ℝ) - 1 ∨ y < 0 ∨ y ≥ (img.height : ℝ) - 1 then
    let ix : ℤ := min (max (pyInt x) 0) (img.width - 1)
    let iy : ℤ := min (max (pyInt y) 0) (img.height - 1)
    let p := img.get_pixel ix iy
    ⟨p.r, p.g, p.b⟩
  else
    let x0 : ℤ := ⌊x⌋
    let y0 : ℤ := ⌊y⌋
    let x1 : ℤ := x0 + 1
    let y1 : ℤ := y0 + 1
    let wx := x - (x0 : ℝ)
    let wy := y - (y0 : ℝ)
    let p00 := img.get_pixel x0 y0
    let p01 := img.get_pixel x1 y0
    let p10 := img.get_pixel x0 y1
    let p11 := img.get_pixel x1 y1
    ⟨(p00.r * (1 - wx) + p01.r * wx) * (1 - wy) + (p10.r * (1 - wx) + p11.r * wx) * wy,
     (p00.g * (1 - wx) + p01.g * wx) * (1 - wy) + (p10.g * (1 - wx) + p11.g * wx) * wy,
     (p00.b * (1 - wx) + p01.b * wx) * (1 - wy) + (p10.b * (1 - wx) + p11.b * wx) * wy⟩

/-- Sampling at exact in-range integer coordinates returns the stored pixel. -/
theorem sample_int (img : FloatImageL) (x y : ℤ) (hx0 : 0 ≤ x) (hxw : x < img.width)
    (hy0 : 0 ≤ y) (hyh : y < img.height) :
    img.sample (x : ℝ) (y : ℝ) = img.get_pixel x y := by
  unfold FloatImageL.sample
  split
  · dsimp only
    rw [pyInt_intCast, pyInt_intCast, max_eq_left hx0, max_eq_left hy0,
      min_eq_left (by omega : x ≤ img.width - 1), min_eq_left (by omega : y ≤ img.height - 1)]
  · dsimp only
    rw [Int.floor_intCast, Int.floor_intCast]
    rw [show (x : ℝ) - (x : ℝ) = 0 by ring, show (y : ℝ) - (y : ℝ) = 0 by ring]
    ring_nf

/-- A width×height image whose pixel at `(x, y)` is `f x y`: the common form
of the post-processing passes that rebuild an output image pixel by pixel
from a zero buffer, visiting every coordinate. -/
def gridImage (w h : ℤ) (f : ℤ → ℤ → Pix) : FloatImageL :=
  { width := w, height := h,
    pixels := (intRange 0 h).map (fun y => (intRange 0 w).map (fun x => f x y)) }

theorem getD_intRange_map {α : Type} (n : ℤ) (f : ℤ → α) (i : ℕ) (hi : (i : ℤ) < n) (d : α) :
    ((intRange 0 n).map f).getD i d = f i := by
  have hlen : i < ((n : ℤ) - 0).toNat := by omega
  unfold intRange
  rw [List.getD_eq_getElem?_getD, List.getElem?_map, List.getElem?_map,
    List.getElem?_range hlen]
  simp

theorem gridImage_get_pixel (w h : ℤ) (f : ℤ → ℤ → Pix) (x y : ℤ)
    (hx0 : 0 ≤ x) (hxw : x < w) (hy0 : 0 ≤ y) (hyh : y < h) :
    (gridImage w h f).get_pixel x y = f x y := by
  unfold gridImage FloatImageL.get_pixel
  dsimp only
  rw [getD_intRange_map h _ y.toNat (by omega) [],
    getD_intRange_map w _ x.toNat (by omega) pixDefault]
  rw [Int.toNat_of_nonneg hx0, Int.toNat_of_nonneg hy0]

/-- The luma of `_bright_pass` (post.py line 22). -/
def lumaOf (p : Pix) : ℝ := 0.2126 * p.r + 0.7152 * p.g + 0.0722 * p.b

/-- `_bright_pass` (post.py line 12): the output starts as a zero image; a
pixel is rescaled by `(luma - threshold)/luma` only when its luma clears both
the threshold and the `1e-5` floor, and is left zero otherwise. -/
def bright_pass (img : FloatImageL) (threshold : ℝ) : FloatImageL :=
  gridImage img.width img.height (fun x y =>
    let p := img.get_pixel x y
    let luma := lumaOf p
    if luma ≤ threshold ∨ luma ≤ 1e-5 then ⟨0, 0, 0⟩
    else
      let scale := (luma - threshold) / luma
      ⟨p.r * scale, p.g * scale, p.b * scale⟩)

/-- C4 (amended): in the bright-pass output, a pixel whose luma is at most the
threshold OR at most the `1e-5` floor is exactly (0,0,0); a pixel whose luma
exceeds both is the source pixel scaled by `(luma - threshold)/luma`.  The
frozen claim omits the `1e-5` floor; `C4_counterexample` shows it matters. -/
theorem C4_bright_pass (img : FloatImageL) (threshold : ℝ) (x y : ℤ)
    (hx0 : 0 ≤ x) (hxw : x < img.width) (hy0 : 0 ≤ y) (hyh : y < img.height) :
    ((lumaOf (img.get_pixel x y) ≤ threshold ∨ lumaOf (img.get_pixel x y) ≤ 1e-5) →
      (bright_pass img threshold).get_pixel x y = ⟨0, 0, 0⟩) ∧
    (threshold < lumaOf (img.get_pixel x y) → 1e-5 < lumaOf (img.get_pixel x y) →
      (bright_pass img threshold).get_pixel x y
        = ⟨(img.get_pixel x y).r * ((lumaOf (img.get_pixel x y) - threshold)
              / lumaOf (img.get_pixel x y)),
           (img.get_pixel x y).g * ((lumaOf (img.get_pixel x y) - threshold)
              / lumaOf (img.get_pixel x y)),
           (img.get_pixel x y).b * ((lumaOf (img.get_pixel x y) - threshold)
              / lumaOf (img.get_pixel x y))⟩) := by
  unfold bright_pass
  rw [gridImage_get_pixel img.width img.height _ x y hx0 hxw hy0 hyh]
  dsimp only
  constructor
  · intro h
    rw [if_pos h]
  · intro h1 h2
    rw [if_neg (by push_neg; exact ⟨h1, h2⟩)]

/-- The 1×1 image of the C4 counterexample: a tiny but positive red value. -/
def c4Img : FloatImageL := ⟨1, 1, [[⟨1e-6, 0, 0⟩]]⟩

/-- C4 counterexample: with threshold 0, the pixel (1e-6, 0, 0) has luma
`2.126e-7`, strictly above the threshold, so the frozen claim requires it to
be rescaled by `(luma - 0)/luma = 1`, i.e. kept; the implementation's `1e-5`
luma floor zeroes it instead. -/
theorem C4_counterexample :
    0 < lumaOf (c4Img.get_pixel 0 0) ∧
    (bright_pass c4Img 0).get_pixel 0 0
      ≠ ⟨(c4Img.get_pixel 0 0).r * ((lumaOf (c4Img.get_pixel 0 0) - 0)
            / lumaOf (c4Img.get_pixel 0 0)),
         (c4Img.get_pixel 0 0).g * ((lumaOf (c4Img.get_pixel 0 0) - 0)
            / lumaOf (c4Img.get_pixel 0 0)),
         (c4Img.get_pixel 0 0).b * ((lumaOf (c4Img.get_pixel 0 0) - 0)
            / lumaOf (c4Img.get_pixel 0 0))⟩ := by
  have hpix : c4Img.get_pixel 0 0 = ⟨1e-6, 0, 0⟩ := rfl
  have hluma : lumaOf (c4Img.get_pixel 0 0) = 0.2126 * 1e-6 := by
    rw [hpix]
    unfold lumaOf
    norm_num
  constructor
  · rw [hluma]
    norm_num
  · unfold bright_pass
    rw [gridImage_get_pixel c4Img.width c4Img.height _ 0 0 le_rfl (by norm_num [c4Img])
      le_rfl (by norm_num [c4Img])]
    dsimp only
    rw [if_pos (Or.inr (by rw [hluma]; norm_num))]
    intro h
    have hr := congrArg Pix.r h
    rw [hpix] at hr
    unfold lumaOf at hr
    norm_num at hr

/-- The 1×1 all-white image of the C4 witness. -/
def c4WImg : FloatImageL := ⟨1, 1, [[⟨1, 1, 1⟩]]⟩

/-- Witness for C4 at a bright pixel that clears both guards. -/
theorem C4_witness :
    (bright_pass c4WImg 0.5).get_pixel 0 0
      = ⟨(c4WImg.get_pixel 0 0).r * ((lumaOf (c4WImg.get_pixel 0 0) - 0.5)
            / lumaOf (c4WImg.get_pixel 0 0)),
         (c4WImg.get_pixel 0 0).g * ((lumaOf (c4WImg.get_pixel 0 0) - 0.5)
            / lumaOf (c4WImg.get_pixel 0 0)),
         (c4WImg.get_pixel 0 0).b * ((lumaOf (c4WImg.get_pixel 0 0) - 0.5)
            / lumaOf (c4WImg.get_pixel 0 0))⟩ :=
  (C4_bright_pass c4WImg 0.5 0 0 le_rfl (by norm_num [c4WImg]) le_rfl
      (by norm_num [c4WImg])).2
    (by rw [show c4WImg.get_pixel 0 0 = ⟨1, 1, 1⟩ from rfl]
        unfold lumaOf
        norm_num)
    (by rw [show c4WImg.get_pixel 0 0 = ⟨1, 1, 1⟩ from rfl]
        unfold lumaOf
        norm_num)

/-- `apply_chromatic_aberration` (post.py line 165): a near-zero magnitude
short-circuits to a copy; otherwise each output pixel takes red and blue from
bilinear samples shifted radially by `(radius/max_radius) * pixels`, and green
from a sample at the pixel's own coordinates; pixels within `1e-6` of the
center are copied. -/
def apply_chromatic_aberration (img : FloatImageL) (pixels : ℝ) (center : Option (ℝ × ℝ)) :
    FloatImageL :=
  if |pixels| < 1e-6 then img.copy
  else
    let cx := match center with
      | some c => c.1
      | none => ((img.width : ℝ) - 1) / 2
    let cy := match center with
      | some c => c.2
      | none => ((img.height : ℝ) - 1) / 2
    let max_radius := max (Real.sqrt ((max cx ((img.width : ℝ) - cx)) ^ 2
        + (max cy ((img.height : ℝ) - cy)) ^ 2)) 1
    gridImage img.width img.height (fun x y =>
      let dx := (x : ℝ) - cx
      let dy := (y : ℝ) - cy
      let radius := Real.sqrt (dx ^ 2 + dy ^ 2)
      if radius ≤ 1e-6 then img.get_pixel x y
      else
        let shift := radius / max_radius * pixels
        let nx := dx / radius
        let ny := dy / radius
        let red := img.sample ((x : ℝ) + nx * shift) ((y : ℝ) + ny * shift)
        let green := img.sample (x : ℝ) (y : ℝ)
        let blue := img.sample ((x : ℝ) - nx * shift) ((y : ℝ) - ny * shift)
        ⟨red.r, green.g, blue.b⟩)

/-- C9: for every input image, magnitude, and center, the chromatic
aberration output has the same green channel as the input at every in-range
pixel — the copy short-circuit, the center-pixel copy, and the unshifted green
sample (which at exact integer coordinates returns the stored pixel) all
preserve green. -/
theorem C9_green_unchanged (img : FloatImageL) (pixels : ℝ) (center : Option (ℝ × ℝ))
    (x y : ℤ) (hx0 : 0 ≤ x) (hxw : x < img.width) (hy0 : 0 ≤ y) (hyh : y < img.height) :
    ((apply_chromatic_aberration img pixels center).get_pixel x y).g
      = (img.get_pixel x y).g := by
  unfold apply_chromatic_aberration
  split
  · rfl
  · simp only [gridImage_get_pixel _ _ _ x y hx0 hxw hy0 hyh,
      sample_int img x y hx0 hxw hy0 hyh]
    split <;> rfl

/-- The 2×2 image of the C9 witness. -/
def c9Img : FloatImageL :=
  ⟨2, 2, [[⟨0.1, 0.2, 0.3⟩, ⟨0.4, 0.5, 0.6⟩], [⟨0.7, 0.8, 0.9⟩, ⟨1, 0, 1⟩]]⟩

/-- Witness for C9 at a concrete image, magnitude and pixel. -/
theorem C9_witness :
    ((apply_chromatic_aberration c9Img 2.5 none).get_pixel 1 0).g = (c9Img.get_pixel 1 0).g :=
  C9_green_unchanged c9Img 2.5 none 1 0 (by norm_num) (by norm_num [c9Img]) (by norm_num)
    (by norm_num [c9Img])

/-- One 8-bit channel value of `to_uint8_rows` (image.py line 153):
`int(min(max(v, 0.0), 1.0) * 255.0 + 0.5)`. -/
def quant8 (v : ℝ) : ℕ := (pyInt (min (max v 0) 1 * 255 + 0.5)).toNat

/-- `FloatImage.to_uint8_rows` (image.py line 146): per scanline, one filter
byte 0 followed by the three quantized channels of each pixel. -/
def to_uint8_rows (img : FloatImageL) : List (List ℕ) :=
  (intRange 0 img.height).map (fun y =>
    0 :: (intRange 0 img.width).flatMap (fun x =>
      let p := img.get_pixel x y
      [quant8 p.r, quant8 p.g, quant8 p.b]))

/-- `struct.pack(">I", n)`: the four big-endian bytes of `n < 2^32`. -/
def be4 (n : ℕ) : List ℕ := [n / 2 ^ 24 % 256, n / 2 ^ 16 % 256, n / 2 ^ 8 % 256, n % 256]

/-- Big-endian decoder for a 4-byte field. -/
def be4val (bs : List ℕ) : ℕ :=
  ((bs.getD 0 0 * 256 + bs.getD 1 0) * 256 + bs.getD 2 0) * 256 + bs.getD 3 0

/-- One step of the reflected CRC-32 bit loop. -/
def crcBit (c : ℕ) : ℕ := if c % 2 = 1 then 0xEDB88320 ^^^ (c / 2) else c / 2

/-- Process one byte of the CRC-32 stream. -/
def crcByte (c b : ℕ) : ℕ := crcBit^[8] (c ^^^ b % 256)

/-- Model of `zlib.crc32` for byte lists: the standard reflected CRC-32
(polynomial 0xEDB88320, initial value and final xor 0xFFFFFFFF). -/
def crc32 (data : List ℕ) : ℕ := (data.foldl crcByte 0xFFFFFFFF) ^^^ 0xFFFFFFFF

/-- The `chunk` helper of `to_png_bytes` (image.py line 166): 4-byte length,
tag, payload, and the CRC of tag plus payload. -/
def pngChunk (tag payload : List ℕ) : List ℕ :=
  be4 payload.length ++ tag ++ payload ++ be4 (crc32 (tag ++ payload))

def tagIHDR : List ℕ := [0x49, 0x48, 0x44, 0x52]

def tagIDAT : List ℕ := [0x49, 0x44, 0x41, 0x54]

def tagIEND : List ℕ := [0x49, 0x45, 0x4E, 0x44]

/-- The 8-byte PNG signature (image.py line 176). -/
def pngSignature : List ℕ := [0x89, 0x50, 0x4E, 0x47, 0x0D, 0x0A, 0x1A, 0x0A]

/-- The IHDR payload (image.py line 174): width, height, bit depth 8,
color type 2, and zero compression/filter/interlace. -/
def ihdrPayload (w h : ℕ) : List ℕ := be4 w ++ be4 h ++ [8, 2, 0, 0, 0]

/-- `FloatImage.to_png_bytes` (image.py line 159), with `zlib.compress`
abstracted as the `compress` parameter (the deflate stream itself is a library
detail; the claims constrain it only through the decompression roundtrip). -/
def to_png_bytes (compress : List ℕ → List ℕ) (img : FloatImageL) : List ℕ :=
  let rows := to_uint8_rows img
  let data := rows.flatten
  let compressed := compress data
  pngSignature
    ++ pngChunk tagIHDR (ihdrPayload img.width.toNat img.height.toNat)
    ++ pngChunk tagIDAT compressed
    ++ pngChunk tagIEND []

theorem intRange_length (a b : ℤ) : (intRange a b).length = (b - a).toNat := by
  simp [intRange]

theorem be4val_be4 (n : ℕ) (h : n < 2 ^ 32) : be4val (be4 n) = n := by
  unfold be4 be4val
  simp only [List.getD_cons_zero, List.getD_cons_succ]
  omega

theorem quant8_le (v : ℝ) : quant8 v ≤ 255 := by
  unfold quant8 pyInt
  have h0 : (0 : ℝ) ≤ min (max v 0) 1 := le_min (le_max_right v 0) (by norm_num)
  have harg : (0 : ℝ) ≤ min (max v 0) 1 * 255 + 0.5 := by positivity
  rw [if_pos harg]
  have hle : min (max v 0) 1 * 255 + 0.5 ≤ 255.5 := by
    have : min (max v 0) 1 ≤ 1 := min_le_right _ _
    nlinarith
  have h255 : ⌊(255.5 : ℝ)⌋ = (255 : ℤ) := by
    rw [Int.floor_eq_iff]
    · norm_num
  have hfl : ⌊min (max v 0) 1 * 255 + 0.5⌋ ≤ (255 : ℤ) := by
    calc ⌊min (max v 0) 1 * 255 + 0.5⌋ ≤ ⌊(255.5 : ℝ)⌋ := Int.floor_le_floor hle
    _ = 255 := h255
  omega

theorem flatMap_three_length {α β : Type} (f : α → List β) (h3 : ∀ a, (f a).length = 3) :
    ∀ l : List α, (l.flatMap f).length = 3 * l.length := by
  intro l
  induction l with
  | nil => rfl
  | cons a as ih =>
    rw [List.flatMap_cons, List.length_append, ih, h3, List.length_cons]
    ring

theorem flatMap_three_getD_aux {α β : Type} (f : α → List β) (h3 : ∀ a, (f a).length = 3) :
    ∀ (l : List α) (k j : ℕ), k < l.length → j < 3 → ∀ (d : β) (da : α),
      (l.flatMap f).getD (3 * k + j) d = (f (l.getD k da)).getD j d := by
  intro l
  induction l with
  | nil =>
    intro k j hk
    simp at hk
  | cons a as ih =>
    intro k j hk hj d da
    rw [List.flatMap_cons]
    cases k with
    | zero =>
      simp only [Nat.mul_zero, Nat.zero_add, List.getD_cons_zero]
      rw [List.getD_eq_getElem?_getD, List.getElem?_append_left (by rw [h3 a]; omega), ←
        List.getD_eq_getElem?_getD]
    | succ m =>
      have hidx : 3 * (m + 1) + j = (f a).length + (3 * m + j) := by
        rw [h3]; ring
      rw [hidx, List.getD_eq_getElem?_getD, List.getElem?_append_right (by omega)]
      rw [show (f a).length + (3 * m + j) - (f a).length = 3 * m + j by omega]
      rw [← List.getD_eq_getElem?_getD, List.getD_cons_succ]
      exact ih m j (by simpa using hk) hj d da

theorem flatMap_three_getD {α β : Type} (f : α → List β) (h3 : ∀ a, (f a).length = 3)
    (l : List α) (k j idx : ℕ) (hk : k < l.length) (hj : j < 3) (hidx : idx = 3 * k + j)
    (d : β) (da : α) : (l.flatMap f).getD idx d = (f (l.getD k da)).getD j d := by
  subst hidx
  exact flatMap_three_getD_aux f h3 l k j hk hj d da

theorem intRange_zero_getD (n : ℤ) (i : ℕ) (hi : (i : ℤ) < n) :
    (intRange 0 n).getD i 0 = (i : ℤ) := by
  have := getD_intRange_map n (fun z => z) i hi 0
  simpa using this

/-- C7: `to_png_bytes` is exactly the PNG signature followed by an IHDR chunk
(width, height, bit depth 8, color type 2, no compression/filter/interlace
flags), a single IDAT holding the compressed scanline data, and an empty IEND;
each chunk carries the big-endian length of its payload (decodable below
`2^32`) and the CRC-32 of its tag plus payload by construction; undoing the
compression recovers `height` scanlines, each a filter byte 0 followed by
`3*width` bytes, every byte at most 255, and the byte triple of pixel `(x,y)`
is its clamped, rounded channel values. -/
theorem C7_png_structure (compress decompress : List ℕ → List ℕ) (img : FloatImageL)
    (hroundtrip : ∀ d, decompress (compress d) = d)
    (hw : 0 < img.width) (hh : 0 < img.height)
    (hw32 : img.width < 2 ^ 32) (hh32 : img.height < 2 ^ 32)
    (hclen : (compress (to_uint8_rows img).flatten).length < 2 ^ 32) :
    to_png_bytes compress img
        = pngSignature
          ++ pngChunk tagIHDR (ihdrPayload img.width.toNat img.height.toNat)
          ++ pngChunk tagIDAT (compress (to_uint8_rows img).flatten)
          ++ pngChunk tagIEND [] ∧
    be4val (be4 img.width.toNat) = img.width.toNat ∧
    be4val (be4 img.height.toNat) = img.height.toNat ∧
    be4val (be4 (compress (to_uint8_rows img).flatten).length)
        = (compress (to_uint8_rows img).flatten).length ∧
    (ihdrPayload img.width.toNat img.height.toNat).length = 13 ∧
    decompress (compress (to_uint8_rows img).flatten) = (to_uint8_rows img).flatten ∧
    (to_uint8_rows img).length = img.height.toNat ∧
    (∀ row ∈ to_uint8_rows img,
      row.length = 1 + 3 * img.width.toNat ∧ row.headD 1 = 0 ∧ ∀ b ∈ row, b ≤ 255) ∧
    (∀ x y : ℤ, 0 ≤ x → x < img.width → 0 ≤ y → y < img.height →
      ((to_uint8_rows img).getD y.toNat []).getD (3 * x.toNat + 1) 0
          = quant8 (img.get_pixel x y).r ∧
      ((to_uint8_rows img).getD y.toNat []).getD (3 * x.toNat + 2) 0
          = quant8 (img.get_pixel x y).g ∧
      ((to_uint8_rows img).getD y.toNat []).getD (3 * x.toNat + 3) 0
          = quant8 (img.get_pixel x y).b) := by
  have h32 : (2 : ℤ) ^ 32 = 4294967296 := by norm_num
  have h3 : ∀ x : ℤ, ([quant8 (img.get_pixel x 0).r] : List ℕ).length = 1 := fun _ => rfl
  refine ⟨rfl, be4val_be4 _ (by omega), be4val_be4 _ (by omega), be4val_be4 _ hclen,
    rfl, hroundtrip _, ?_, ?_, ?_⟩
  · unfold to_uint8_rows
    rw [List.length_map, intRange_length]
    norm_num
  · intro row hrow
    unfold to_uint8_rows at hrow
    rw [List.mem_map] at hrow
    obtain ⟨y, hy, hrow⟩ := hrow
    subst hrow
    have h3F : ∀ z : ℤ, ((fun x : ℤ =>
        let p := img.get_pixel x y
        [quant8 p.r, quant8 p.g, quant8 p.b]) z).length = 3 := fun z => rfl
    refine ⟨?_, rfl, ?_⟩
    · rw [List.length_cons, flatMap_three_length _ h3F, intRange_length]
      omega
    · intro b hb
      rcases List.mem_cons.mp hb with hb | hb
      · omega
      · rw [List.mem_flatMap] at hb
        obtain ⟨x, hx, hb⟩ := hb
        dsimp only at hb
        rcases List.mem_cons.mp hb with hb | hb
        · subst hb; exact quant8_le _
        rcases List.mem_cons.mp hb with hb | hb
        · subst hb; exact quant8_le _
        rcases List.mem_cons.mp hb with hb | hb
        · subst hb; exact quant8_le _
        · simp at hb
  · intro x y hx0 hxw hy0 hyh
    unfold to_uint8_rows
    rw [getD_intRange_map img.height _ y.toNat (by omega) []]
    rw [Int.toNat_of_nonneg hy0]
    have hcons : ∀ m : ℕ,
        ((0 : ℕ) :: (intRange 0 img.width).flatMap (fun x =>
          let p := img.get_pixel x y
          [quant8 p.r, quant8 p.g, quant8 p.b])).getD (m + 1) 0
        = ((intRange 0 img.width).flatMap (fun x =>
          let p := img.get_pixel x y
          [quant8 p.r, quant8 p.g, quant8 p.b])).getD m 0 := fun m => rfl
    have hkx : x.toNat < (intRange 0 img.width).length := by
      rw [intRange_length]; omega
    have hget : (intRange 0 img.width).getD x.toNat 0 = x := by
      rw [intRange_zero_getD img.width x.toNat (by omega), Int.toNat_of_nonneg hx0]
    have h3F : ∀ z : ℤ, ((fun x : ℤ =>
        let p := img.get_pixel x y
        [quant8 p.r, quant8 p.g, quant8 p.b]) z).length = 3 := fun z => rfl
    refine ⟨?_, ?_, ?_⟩
    · rw [show 3 * x.toNat + 1 = (3 * x.toNat + 0) + 1 by omega, hcons,
        flatMap_three_getD _ h3F _ x.toNat 0 _ hkx (by omega) (by omega) 0 0, hget]
      rfl
    · rw [show 3 * x.toNat + 2 = (3 * x.toNat + 1) + 1 by omega, hcons,
        flatMap_three_getD _ h3F _ x.toNat 1 _ hkx (by omega) (by omega) 0 0, hget]
      rfl
    · rw [show 3 * x.toNat + 3 = (3 * x.toNat + 2) + 1 by omega, hcons,
        flatMap_three_getD _ h3F _ x.toNat 2 _ hkx (by omega) (by omega) 0 0, hget]
      rfl

/-- The 1×1 image of the C7 witness. -/
def c7Img : FloatImageL := ⟨1, 1, [[⟨0.5, 0, 1⟩]]⟩

theorem c7Img_flatten_length : (to_uint8_rows c7Img).flatten.length = 4 := by
  unfold to_uint8_rows
  rw [show c7Img.height = 1 from rfl, show c7Img.width = 1 from rfl,
    show intRange 0 1 = [0] from by decide]
  rfl

/-- Witness for C7 with the identity compressor on a concrete 1×1 image. -/
theorem C7_witness :
    to_png_bytes (fun d => d) c7Img
      = pngSignature
        ++ pngChunk tagIHDR (ihdrPayload c7Img.width.toNat c7Img.height.toNat)
        ++ pngChunk tagIDAT ((fun d => d) (to_uint8_rows c7Img).flatten)
        ++ pngChunk tagIEND [] ∧
    (fun d => d) ((fun d => d) (to_uint8_rows c7Img).flatten)
      = (to_uint8_rows c7Img).flatten ∧
    (to_uint8_rows c7Img).length = c7Img.height.toNat := by
  have h := C7_png_structure (fun d => d) (fun d => d) c7Img (fun d => rfl)
    (by norm_num [c7Img]) (by norm_num [c7Img]) (by norm_num [c7Img]) (by norm_num [c7Img])
    (by rw [show (fun d : List ℕ => d) (to_uint8_rows c7Img).flatten
          = (to_uint8_rows c7Img).flatten from rfl, c7Img_flatten_length]
        norm_num)
  exact ⟨h.1, h.2.2.2.2.2.1, h.2.2.2.2.2.2.1⟩

/-- Model of `random.Random`: `random()` reads successive values of an
abstract seed-determined stream; `gauss` keeps CPython's cached second
Box-Muller variate as explicit state. -/
structure RNGState where
  stream : ℕ → ℝ
  idx : ℕ
  gaussNext : Option ℝ

/-- `rng.random()`: the next stream value. -/
def rngRandom (s : RNGState) : ℝ × RNGState := (s.stream s.idx, { s with idx := s.idx + 1 })

/-- `rng.uniform(a, b)` per CPython: `a + (b - a) * random()`. -/
def rngUniform (s : RNGState) (a b : ℝ) : ℝ × RNGState :=
  let r := rngRandom s
  (a + (b - a) * r.1, r.2)

/-- `rng.gauss(mu, sigma)` per CPython: return the cached second variate if
present, else draw two uniforms, form both Box-Muller variates, cache one. -/
def rngGauss (s : RNGState) (mu sigma : ℝ) : ℝ × RNGState :=
  match s.gaussNext with
  | some z => (mu + z * sigma, { s with gaussNext := none })
  | none =>
    let r1 := rngRandom s
    let r2 := rngRandom r1.2
    let x2pi := r1.1 * (2 * Real.pi)
    let g2rad := Real.sqrt (-2 * Real.log (1 - r2.1))
    let z := Real.cos x2pi * g2rad
    (mu + z * sigma, { r2.2 with gaussNext := some (Real.sin x2pi * g2rad) })

/-- `clamp` (utils.py line 8): `max(lo, min(hi, value))`. -/
def clampL (value lo hi : ℝ) : ℝ := max lo (min hi value)

/-- `mix_colors` (utils.py line 43). -/
def mix_colors (a b : Pix) (t : ℝ) : Pix :=
  let t := clampL t 0 1
  ⟨(1 - t) * a.r + t * b.r, (1 - t) * a.g + t * b.g, (1 - t) * a.b + t * b.b⟩

def hexDigitVal (c : Char) : Option ℕ :=
  if '0' ≤ c ∧ c ≤ '9' then some (c.toNat - '0'.toNat)
  else if 'a' ≤ c ∧ c ≤ 'f' then some (c.toNat - 'a'.toNat + 10)
  else if 'A' ≤ c ∧ c ≤ 'F' then some (c.toNat - 'A'.toNat + 10)
  else none

def hexByte (c1 c2 : Char) : Option ℕ := do
  let a ← hexDigitVal c1
  let b ← hexDigitVal c2
  pure (16 * a + b)

/-- `hex_to_rgb` (utils.py line 14): strip, drop a leading `#`, accept 3- or
6-digit forms (3 digits are doubled); `none` models the `ValueError` raised
for any other length or a non-hex digit. -/
def hex_to_rgb (s : String) : Option Pix :=
  let cs0 := s.trim.toList
  let cs := if cs0.headD ' ' = '#' then cs0.tail else cs0
  if cs.length = 3 ∨ cs.length = 6 then
    let cs6 := if cs.length = 3 then cs.flatMap (fun c => [c, c]) else cs
    do
      let r ← hexByte (cs6.getD 0 ' ') (cs6.getD 1 ' ')
      let g ← hexByte (cs6.getD 2 ' ') (cs6.getD 3 ' ')
      let b ← hexByte (cs6.getD 4 ' ') (cs6.getD 5 ' ')
      pure ⟨(r : ℝ) / 255, (g : ℝ) / 255, (b : ℝ) / 255⟩
  else none

/-- `FloatImage.add_image` (image.py line 103): pointwise sum over zipped rows
(`zip` truncates to the shorter operand, as in Python). -/
def FloatImageL.add_image (img other : FloatImageL) : FloatImageL :=
  { img with pixels := List.zipWith (List.zipWith (fun p q : Pix =>
      ⟨p.r + q.r, p.g + q.g, p.b + q.b⟩)) img.pixels other.pixels }

/-- `FloatImage.add_scaled_image` (image.py line 110). -/
def FloatImageL.add_scaled_image (img other : FloatImageL) (scale : ℝ) : FloatImageL :=
  { img with pixels := List.zipWith (List.zipWith (fun p q : Pix =>
      ⟨p.r + q.r * scale, p.g + q.g * scale, p.b + q.b * scale⟩)) img.pixels other.pixels }

def clampPix (lo hi : ℝ) (p : Pix) : Pix :=
  ⟨min (max p.r lo) hi, min (max p.g lo) hi, min (max p.b lo) hi⟩

/-- `FloatImage.clamp` (image.py line 117): clamp the pixels addressed by the
declared width and height. -/
def FloatImageL.clampImg (img : FloatImageL) (lo hi : ℝ) : FloatImageL :=
  { img with pixels := (intRange 0 img.height).foldl (fun rows y =>
      listModify (fun row => (intRange 0 img.width).foldl (fun r x =>
        listModify (clampPix lo hi) x.toNat r) row) y.toNat rows) img.pixels }

/-- `FloatImage.downsample` (image.py line 125): box average of each
factor×factor block (Python `//` is floor division, `Int.fdiv`). -/
def FloatImageL.downsample (img : FloatImageL) (factor : ℤ) : FloatImageL :=
  if factor ≤ 1 then img.copy
  else
    let new_width := Int.fdiv img.width factor
    let new_height := Int.fdiv img.height factor
    let scale := 1 / ((factor : ℝ) * (factor : ℝ))
    gridImage new_width new_height (fun x y =>
      let acc := (intRange 0 factor).foldl (fun a yy =>
        (intRange 0 factor).foldl (fun a2 xx =>
          let p := img.get_pixel (x * factor + xx) (y * factor + yy)
          (a2.1 + p.r, a2.2.1 + p.g, a2.2.2 + p.b)) a) ((0 : ℝ), (0 : ℝ), (0 : ℝ))
      ⟨acc.1 * scale, acc.2.1 * scale, acc.2.2 * scale⟩)

/-- `gaussian_kernel` (image.py line 271). -/
def gaussian_kernel (sigma : ℝ) : List ℝ × ℤ :=
  if sigma ≤ 0 then ([1], 0)
  else
    let radius : ℤ := max 1 ⌈sigma * 3⌉
    let denom := 2 * sigma * sigma
    let kernel := (intRange (-radius) (radius + 1)).map (fun off =>
      Real.exp (-((off : ℝ) * (off : ℝ)) / denom))
    let total := kernel.sum
    if total ≤ 0 then ([1], 0)
    else
      let inv_total := 1 / total
      (kernel.map (fun value => value * inv_total), radius)

/-- `gaussian_blur` (image.py line 207): separable two-pass convolution with
the window clipped to the image; the kernel index of source column `xx` is
`xx - (x - radius)` in both the clipped and unclipped cases. -/
def gaussian_blur (image : FloatImageL) (sigma : ℝ) : FloatImageL :=
  if sigma ≤ 0 then image.copy
  else
    let kr := gaussian_kernel sigma
    let kernel := kr.1
    let radius := kr.2
    let width := image.width
    let height := image.height
    let temp := gridImage width height (fun x y =>
      (intRange (max 0 (x - radius)) (min width (x + radius + 1))).foldl (fun acc xx =>
        let kw := kernel.getD (xx - (x - radius)).toNat 0
        let p := image.get_pixel xx y
        ⟨acc.r + p.r * kw, acc.g + p.g * kw, acc.b + p.b * kw⟩) ⟨0, 0, 0⟩)
    gridImage width height (fun x y =>
      (intRange (max 0 (y - radius)) (min height (y + radius + 1))).foldl (fun acc yy =>
        let kw := kernel.getD (yy - (y - radius)).toNat 0
        let p := temp.get_pixel x yy
        ⟨acc.r + p.r * kw, acc.g + p.g * kw, acc.b + p.b * kw⟩) ⟨0, 0, 0⟩)

/-- The body of the `while` loop of `_select_downsample_factor` with explicit
fuel.  The loop doubles `factor` while `sigma/factor > 6` and both halved
dimensions stay at least 8; it runs at most `log2(min(width,height)/16) + 1`
times, so any fuel of at least `width.toNat + height.toNat + 2` is enough for
the condition to fail before the fuel does. -/
def select_downsample_factor_loop (sigma : ℝ) (width height : ℤ) : ℕ → ℤ → ℤ
  | 0, factor => factor
  | fuel + 1, factor =>
    if 6 < sigma / (factor : ℝ) ∧ 8 ≤ min (Int.fdiv width (factor * 2)) (Int.fdiv height (factor * 2))
    then select_downsample_factor_loop sigma width height fuel (factor * 2)
    else factor

/-- `_select_downsample_factor` (post.py line 33). -/
def select_downsample_factor (sigma : ℝ) (width height : ℤ) : ℤ :=
  select_downsample_factor_loop sigma width height (width.toNat + height.toNat + 2) 1

/-- `_get_downsampled` (post.py line 40): the per-render cache memoizes the
pure halving chain, so it is modelled as the chain itself. -/
def get_downsampled (image : FloatImageL) (factor : ℕ) : FloatImageL :=
  if factor ≤ 1 then image
  else (get_downsampled image (factor / 2)).downsample 2
termination_by factor
decreasing_by exact Nat.div_lt_self (by omega) (by omega)

/-- `_resample_nearest` (post.py line 54). -/
def resample_nearest (image : FloatImageL) (width height : ℤ) : FloatImageL :=
  gridImage width height (fun x y =>
    let src_width := max 1 image.width
    let src_height := max 1 image.height
    let src_y := min (src_height - 1) (Int.fdiv (y * src_height) height)
    let src_x := min (src_width - 1) (Int.fdiv (x * src_width) width)
    image.get_pixel src_x src_y)

/-- `_horizontal_gaussian` (post.py line 74): the horizontal pass of the
separable blur only. -/
def horizontal_gaussian (image : FloatImageL) (sigma : ℝ) : FloatImageL :=
  if sigma ≤ 0 then image.copy
  else
    let kr := gaussian_kernel sigma
    let kernel := kr.1
    let radius := kr.2
    gridImage image.width image.height (fun x y =>
      (intRange (max 0 (x - radius)) (min image.width (x + radius + 1))).foldl (fun acc xx =>
        let kw := kernel.getD (xx - (x - radius)).toNat 0
        let p := image.get_pixel xx y
        ⟨acc.r + p.r * kw, acc.g + p.g * kw, acc.b + p.b * kw⟩) ⟨0, 0, 0⟩)

/-- Python `round(x)` (banker's rounding: ties go to the even integer). -/
def roundHalfEven (x : ℝ) : ℤ :=
  if Int.fract x = 0.5 then (if ⌊x⌋ % 2 = 0 then ⌊x⌋ else ⌊x⌋ + 1) else round x

/-- Python `round(x, 6)` of the bloom cache key. -/
def round6 (x : ℝ) : ℝ := ((roundHalfEven (x * 1000000) : ℤ) : ℝ) / 1000000

/-- A lookup in the per-render blur cache, keyed like the Python dict. -/
def cacheLookup (key : ℤ × ℝ) : List ((ℤ × ℝ) × FloatImageL) → Option FloatImageL
  | [] => none
  | (k, v) :: rest => if k = key then some v else cacheLookup key rest

/-- `apply_bloom` (post.py line 109): bright-pass once, then for each
(sigma, intensity) pair blur a mip of the bright buffer and accumulate it,
memoizing blur results per (factor, rounded sigma) key. -/
def apply_bloom (image : FloatImageL) (threshold : ℝ) (sigmas intensities : List ℝ) :
    FloatImageL × FloatImageL :=
  let bright := bright_pass image threshold
  let res := (List.zip sigmas intensities).foldl
    (fun (acc : FloatImageL × List ((ℤ × ℝ) × FloatImageL)) si =>
      let sigma := si.1
      let intensity := si.2
      if intensity ≤ 0 ∨ sigma ≤ 0 then acc
      else
        let factor := select_downsample_factor sigma bright.width bright.height
        let base := get_downsampled bright factor.toNat
        let adjusted_sigma := sigma / (factor : ℝ)
        let key := (factor, round6 adjusted_sigma)
        match cacheLookup key acc.2 with
        | some blurred => (acc.1.add_scaled_image blurred intensity, acc.2)
        | none =>
          let blurred_image := gaussian_blur base adjusted_sigma
          let blurred := if factor ≠ 1 then
              resample_nearest blurred_image image.width image.height
            else blurred_image
          (acc.1.add_scaled_image blurred intensity, acc.2 ++ [(key, blurred)]))
    (image.copy, [])
  (res.1, bright)

/-- `apply_anamorphic_streak` (post.py line 141). -/
def apply_anamorphic_streak (image bright : FloatImageL) (length_px intensity : ℝ) :
    FloatImageL :=
  if intensity ≤ 0 ∨ length_px ≤ 0 then image
  else
    let sigma := max 1 (length_px / 6)
    let factor := select_downsample_factor sigma bright.width bright.height
    let base := get_downsampled bright factor.toNat
    let streak_base := horizontal_gaussian base (sigma / (factor : ℝ))
    let streak := if factor ≠ 1 then resample_nearest streak_base image.width image.height
      else streak_base
    image.add_scaled_image streak intensity

/-- `apply_vignette` (post.py line 209). -/
def apply_vignette (image : FloatImageL) (strength : ℝ) : FloatImageL :=
  if strength ≤ 0 then image.copy
  else
    let cx := ((image.width : ℝ) - 1) / 2
    let cy := ((image.height : ℝ) - 1) / 2
    let max_radius := Real.sqrt (cx * cx + cy * cy)
    gridImage image.width image.height (fun x y =>
      let dx := (x : ℝ) - cx
      let dy := (y : ℝ) - cy
      let factor := 1 - strength * Real.rpow (Real.sqrt (dx * dx + dy * dy) / max_radius) 1.5
      let factor := max 0 (min 1 factor)
      let p := image.get_pixel x y
      ⟨p.r * factor, p.g * factor, p.b * factor⟩)

/-- `add_grain` (post.py line 232): one shared Gaussian noise draw per pixel
added to all three channels, floored at zero, threading the generator in
row-major order. -/
def add_grain (image : FloatImageL) (amount : ℝ) (rng : RNGState) :
    FloatImageL × RNGState :=
  if amount ≤ 0 then (image.copy, rng)
  else
    let res := image.pixels.foldl
      (fun (acc : List (List Pix) × RNGState) row =>
        let rowRes := row.foldl
          (fun (acc2 : List Pix × RNGState) p =>
            let gr := rngGauss acc2.2 0 amount
            let noise := gr.1
            let r := p.r + noise
            let g := p.g + noise
            let b := p.b + noise
            (acc2.1 ++ [⟨if 0 < r then r else 0, if 0 < g then g else 0,
              if 0 < b then b else 0⟩], gr.2))
          ([], acc.2)
        (acc.1 ++ [rowRes.1], rowRes.2))
      ([], rng)
    ({ image with pixels := res.1 }, res.2)

/-- `tone_map_aces` (post.py line 249). -/
def tone_map_aces (image : FloatImageL) (gamma : ℝ) : FloatImageL :=
  let inv_gamma := 1 / max gamma 1e-3
  let tone := fun value : ℝ =>
    let mapped := (value * (2.51 * value + 0.03)) / (value * (2.43 * value + 0.59) + 0.14)
    let mapped := clampL mapped 0 1
    clampL (Real.rpow mapped inv_gamma) 0 1
  { image with pixels := image.pixels.map (fun row => row.map (fun p =>
      ⟨tone p.r, tone p.g, tone p.b⟩)) }

/-- `BulgeDistribution` (config.py line 104). -/
structure BulgeDistributionL where
  count : ℤ
  sigma : ℝ
  falloff_alpha : ℝ
  size_px : ℝ × ℝ

/-- `BackgroundDistribution` (config.py line 114). -/
structure BackgroundDistributionL where
  count : ℤ
  size_px : ℝ × ℝ
  jitter : ℝ
  min_r : ℝ
  max_r : ℝ

/-- `StarConfig` (config.py line 125). -/
structure StarConfigL where
  bulge : BulgeDistributionL
  background : BackgroundDistributionL
  warm_color : String
  hot_color : String
  background_color : String

/-- `TextConfig` (config.py line 136). -/
structure TextConfigL where
  font : Option String
  size_px : ℤ
  color : String
  tracking : ℝ
  tabular_digits : Bool

/-- `HUDReadout` (config.py line 147). -/
structure HUDReadoutL where
  text : String
  position : ℝ
  alignment : String

/-- `HUDConfig` (config.py line 156).  The `use_default_readouts` field is
Modelled from the spec: shapes.py reads `config.hud.use_default_readouts`
to decide whether the built-in HUD readout strip applies, but the dataclass
in src/config.py lacks that field; it is carried here as plain state. -/
structure HUDConfigL where
  enabled : Bool
  height_px : ℤ
  font : Option String
  emissive : ℝ
  readouts : List HUDReadoutL
  use_default_readouts : Bool

/-- `BloomConfig` (config.py line 167). -/
structure BloomConfigL where
  threshold : ℝ
  sigmas : List ℝ
  intensities : List ℝ

/-- `ChromaticAberrationConfig` (config.py line 174). -/
structure ChromaticAberrationConfigL where
  pixels : ℝ
  center : Option (ℝ × ℝ)

/-- `AnamorphicConfig` (config.py line 180). -/
structure AnamorphicConfigL where
  enabled : Bool
  length_px : ℝ
  intensity : ℝ

/-- `PostConfig` (config.py line 187). -/
structure PostConfigL where
  bloom : BloomConfigL
  chromatic_aberration : ChromaticAberrationConfigL
  anamorphic : AnamorphicConfigL
  vignette : ℝ
  grain : ℝ
  tonemap : String
  gamma : ℝ

/-- `ReadoutPlacement` (config.py line 84). -/
structure ReadoutPlacementL where
  kind : String
  ring_index : ℤ
  angle_deg : ℝ
  radius : Option ℝ
  radial_offset : ℝ

/-- `ReadoutConfig` (config.py line 95). -/
structure ReadoutConfigL where
  text : String
  alignment : String
  placement : ReadoutPlacementL

/-- `SceneConfig` (config.py line 200). -/
structure SceneConfigL where
  seed : ℤ
  resolution : ResolutionL
  camera : CameraL
  rings : List RingConfigL
  stars : StarConfigL
  readouts : List ReadoutConfigL
  text : TextConfigL
  post : PostConfigL
  hud : HUDConfigL
  lut : Option String
  name : Option String

/-- `Star` (sampling.py line 18). -/
structure StarL where
  x : ℝ
  y : ℝ
  radius : ℝ
  intensity : ℝ
  color : Pix

/-- `_sample_bulge_radius` (sampling.py line 27). -/
def sample_bulge_radius (rng : RNGState) (sigma alpha : ℝ) : ℝ × RNGState :=
  let sigma := max sigma 1e-4
  let epsilon := sigma * 0.12 + 1e-4
  if |alpha - 1| < 1e-6 then
    let span := Real.log ((sigma + epsilon) / epsilon)
    let r := rngRandom rng
    let value := Real.exp (r.1 * span) * epsilon - epsilon
    (clampL value 0 sigma, r.2)
  else
    let exponent := 1 - alpha
    let base := Real.rpow (sigma + epsilon) exponent - Real.rpow epsilon exponent
    let r := rngRandom rng
    let value := Real.rpow (r.1 * base + Real.rpow epsilon exponent) (1 / exponent) - epsilon
    (clampL value 0 sigma, r.2)

/-- `_sample_background_position` (sampling.py line 44). -/
def sample_background_position (rng : RNGState) (projection : ProjectionParamsL)
    (config : BackgroundDistributionL) : (ℝ × ℝ × ℝ) × RNGState :=
  let first :=
    if config.min_r < config.max_r then
      let u := rngRandom rng
      let radius := Real.sqrt (u.1 * (config.max_r * config.max_r - config.min_r * config.min_r)
        + config.min_r * config.min_r)
      let a := rngRandom u.2
      let angle := a.1 * (2 * Real.pi)
      (projection.project radius angle, a.2)
    else
      let xr := rngRandom rng
      let yr := rngRandom xr.2
      ((xr.1 * (projection.width : ℝ), yr.1 * (projection.height : ℝ), projection.distance),
        yr.2)
  let jitter := config.jitter * projection.base_radius
  let j1 := rngUniform first.2 (-jitter) jitter
  let j2 := rngUniform j1.2 (-(jitter * 0.6)) (jitter * 0.6)
  ((first.1.1 + j1.1, first.1.2.1 + j2.1, first.1.2.2), j2.2)

/-- `generate_star_field` (sampling.py line 67): `none` models the
`ValueError` that `hex_to_rgb` raises for a malformed color string. -/
def generate_star_field (config : StarConfigL) (projection : ProjectionParamsL)
    (rng : RNGState) (ssaa : ℤ) : Option (List StarL × RNGState) := do
  let warm ← hex_to_rgb config.warm_color
  let hot ← hex_to_rgb config.hot_color
  let background ← hex_to_rgb config.background_color
  let bulge := (List.range config.bulge.count.toNat).foldl
    (fun (acc : List StarL × RNGState) _ =>
      let aD := rngRandom acc.2
      let angle := aD.1 * (2 * Real.pi)
      let rD := sample_bulge_radius aD.2 config.bulge.sigma config.bulge.falloff_alpha
      let radius := rD.1
      let pr := projection.project radius angle
      let scale := clampL (pr.2.2 / projection.distance) 0.4 2.2
      let sD := rngUniform rD.2 config.bulge.size_px.1 config.bulge.size_px.2
      let size := sD.1 * (ssaa : ℝ) * clampL scale 0.7 1.8
      let tightness := clampL (1 - radius / max config.bulge.sigma 1e-3) 0 1
      let mD := rngRandom sD.2
      let color_mix := clampL (Real.rpow tightness 0.85 + mD.1 * 0.2) 0 1
      let color := mix_colors warm hot color_mix
      let iD := rngRandom mD.2
      let intensity := (1.15 + iD.1 * 1.5) * clampL (Real.rpow scale 0.6) 0.6 1.9
      (acc.1 ++ [⟨pr.1, pr.2.1, size, intensity, color⟩], iD.2))
    ([], rng)
  let both := (List.range config.background.count.toNat).foldl
    (fun (acc : List StarL × RNGState) _ =>
      let pD := sample_background_position acc.2 projection config.background
      let scale := clampL (pD.1.2.2 / projection.distance) 0.5 1.6
      let sD := rngUniform pD.2 config.background.size_px.1 config.background.size_px.2
      let size := sD.1 * (ssaa : ℝ) * clampL scale 0.6 1.4
      let iD := rngRandom sD.2
      let intensity := 0.35 + iD.1 * 0.65
      let hD := rngRandom iD.2
      let hue_mix := clampL (hD.1 * 0.35 + 0.2) 0 1
      let color := mix_colors background warm hue_mix
      (acc.1 ++ [⟨pD.1.1, pD.1.2.1, size, intensity, color⟩], hD.2))
    bulge
  pure both

/-- `render_star_field` (sampling.py line 105). -/
def render_star_field (stars : List StarL) (projection : ProjectionParamsL) : FloatImageL :=
  stars.foldl (fun img star =>
    img.add_gaussian star.x star.y (max 0.5 (star.radius / 2)) star.intensity star.color)
    (FloatImageL.new projection.width projection.height 0)

/-- `RingPoint` (shapes.py line 16). -/
structure RingPointL where
  x : ℝ
  y : ℝ
  scale : ℝ
  angle : ℝ

def rpDefault : RingPointL := ⟨0, 0, 0, 0⟩

def ringDefault : RingConfigL :=
  { r := 0, width := 0.006, color := "#ffffff", dash := none, ticks_every_deg := none,
    label := none, label_angle_deg := none, label_offset := 0.015, glow := 1,
    halo_color := none, tick := none }

/-- `_sample_ring_points` (shapes.py line 31): `math.tau` is `2π`. -/
def sample_ring_points (projection : ProjectionParamsL) (radius : ℝ) (samples : ℤ) :
    List RingPointL :=
  (intRange 0 samples).map (fun index =>
    let angle := ((index : ℝ) / (samples : ℝ)) * (2 * Real.pi)
    let p := projection.project radius angle
    ⟨p.1, p.2.1, clampL (p.2.2 / projection.distance) 0.4 2.2, angle⟩)

/-- `_draw_polyline` (shapes.py line 43). -/
def draw_polyline (image : FloatImageL) (points : List RingPointL) (base_width : ℝ)
    (color : Pix) (intensity_scale : ℝ) : FloatImageL :=
  let count := points.length
  if count < 2 then image
  else
    (List.range count).foldl (fun img index =>
      let current := points.getD index rpDefault
      let nxt := points.getD ((index + 1) % count) rpDefault
      let dx := nxt.x - current.x
      let dy := nxt.y - current.y
      let distance := max 1 (Real.sqrt (dx * dx + dy * dy))
      let steps : ℤ := max 1 (pyInt (distance / max 1 (base_width * 0.45)))
      (intRange 0 (steps + 1)).foldl (fun img2 step =>
        let t := (step : ℝ) / (steps : ℝ)
        let x := current.x + dx * t
        let y := current.y + dy * t
        let scale := current.scale * (1 - t) + nxt.scale * t
        let w := max 0.55 (base_width * scale)
        let inten := min 1.6 (0.75 + 0.35 * min scale 1.6) * intensity_scale
        img2.add_disc x y (w * 0.5) color inten) img) image

/-- `_draw_ring` (shapes.py line 69). -/
def draw_ring (core glow : FloatImageL) (points : List RingPointL) (base_width : ℝ)
    (color halo_color : Pix) (glow_strength : ℝ) : FloatImageL × FloatImageL :=
  (draw_polyline core points base_width color 1,
   draw_polyline glow points (base_width * 1.35) halo_color
     (clampL (glow_strength * 0.25) 0.05 0.6))

/-- `_iter_tick_spacings` (shapes.py line 84): positive spacings sorted
descending, paired with lengths interpolated from `high` down to `low`. -/
def iter_tick_spacings (config : RingTickConfigL) : List (ℝ × ℝ) :=
  let spacings := (config.every_deg.filter (fun v => decide (0 < v))).mergeSort
    (fun a b => decide (b ≤ a))
  if spacings.isEmpty then []
  else
    let lo := config.length_px.1
    let hi := config.length_px.2
    let count := max (spacings.length - 1) 1
    (List.range spacings.length).map (fun (index : ℕ) =>
      let factor := (index : ℝ) / (count : ℝ)
      (spacings.getD index 0, hi - (hi - lo) * factor))

/-- The supersampling-scaled tick length passed to the stamping loop
(shapes.py line 108): `max(2.0, length * ssaa)`. -/
def tickLengthArg (length : ℝ) (ssaa : ℤ) : ℝ := max 2 (length * (ssaa : ℝ))

/-- `_draw_ticks` (shapes.py line 96). -/
def draw_ticks (core glow : FloatImageL) (projection : ProjectionParamsL)
    (radius base_width : ℝ) (color halo_color : Pix) (config : RingTickConfigL)
    (ssaa : ℤ) : FloatImageL × FloatImageL :=
  (iter_tick_spacings config).foldl (fun (acc : FloatImageL × FloatImageL) sl =>
    let spacing := sl.1
    let length_px := tickLengthArg sl.2 ssaa
    let delta_radius := length_px * projection.pixel_to_radius
    let offset_radius := radius + (base_width * 0.5) * projection.pixel_to_radius
    let inner := offset_radius
    let outer := offset_radius + delta_radius
    if spacing ≤ 0 then acc
    else
      let count : ℤ := max 1 (roundHalfEven (360 / spacing))
      (intRange 0 count).foldl (fun acc2 index =>
        let angle := radiansL ((index : ℝ) * spacing)
        let p0 := projection.project inner angle
        let p1 := projection.project outer angle
        let scale := clampL ((p0.2.2 + p1.2.2) * 0.5 / projection.distance) 0.5 1.8
        let w := max 1 (base_width * 0.45 * config.weight * scale)
        let inten := config.alpha * (0.7 + 0.3 * min scale 1.4)
        let core2 := acc2.1.add_line (p0.1, p0.2.1) (p1.1, p1.2.1) color
          (max 1 (roundHalfEven w)) inten
        let glow2 := acc2.2.add_line (p0.1, p0.2.1) (p1.1, p1.2.1) halo_color
          (max 1 (roundHalfEven (w * 1.4))) (inten * 0.4)
        (core2, glow2)) acc) (core, glow)

/-- `_ellipse_parameters` (shapes.py line 133): degenerate projected radii are
replaced by screen-space fallbacks. -/
def ellipse_parameters_adj (projection : ProjectionParamsL) (radius : ℝ) : ℝ × ℝ × ℝ :=
  let e := projection.ellipse_parameters radius
  let radius_x := if e.2.1 ≤ 0 then projection.base_radius * radius else e.2.1
  let radius_y := if e.2.2 ≤ 0 then max (radius_x * 0.12) 1 else e.2.2
  (e.1, radius_x, radius_y)

/-- `_build_label_specs` (shapes.py line 144).  Ring labels that are `None` or
empty are skipped (Python truthiness); readouts with out-of-range ring indices
are skipped. -/
def build_label_specs (config : SceneConfigL) (projection : ProjectionParamsL)
    (ssaa : ℤ) : List LabelSpecL :=
  let label_scale := max 1 ((config.text.size_px : ℝ) / 18) * (ssaa : ℝ)
  let ringSpecs := (List.range config.rings.length).foldl (fun acc index =>
    let ring := config.rings.getD index ringDefault
    match ring.label with
    | none => acc
    | some label =>
      if label = "" then acc
      else
        let label_radius := ring.r + ring.width * 0.5 + ring.label_offset
        let e := ellipse_parameters_adj projection label_radius
        let angle := match ring.label_angle_deg with
          | some d => radiansL d
          | none => Real.pi / 2
        let spec : LabelSpecL :=
          { ring_index := (index : ℤ), text := label.toList,
            center := (projection.center_x, e.1), radius_x := e.2.1, radius_y := e.2.2,
            initial_angle := angle, tracking := config.text.tracking, scale := label_scale }
        acc ++ [spec]) []
  config.readouts.foldl (fun acc readout =>
    let ring_index := readout.placement.ring_index
    if ring_index < 0 ∨ (config.rings.length : ℤ) ≤ ring_index then acc
    else
      let ring := config.rings.getD ring_index.toNat ringDefault
      let label_radius := match readout.placement.radius with
        | some r => r
        | none => ring.r + readout.placement.radial_offset
      let e := ellipse_parameters_adj projection label_radius
      let angle := radiansL readout.placement.angle_deg
      let baseline := if readout.placement.kind = "linear" then "linear" else "arc"
      let spec : LabelSpecL :=
        { ring_index := ring_index, text := readout.text.toList,
          center := (projection.center_x, e.1), radius_x := e.2.1, radius_y := e.2.2,
          initial_angle := angle, tracking := config.text.tracking, scale := label_scale,
          alignment := readout.alignment, baseline := baseline }
      acc ++ [spec]) ringSpecs

/-- `_draw_glyph` (labels.py line 162): stamp the '#' cells of a glyph mask,
rotated, as discs. -/
def draw_glyph (image : FloatImageL) (glyph : List String) (center : ℝ × ℝ)
    (scale rotation : ℝ) (color : Pix) (intensity : ℝ) : FloatImageL :=
  let angle := radiansL rotation
  let cos_a := Real.cos angle
  let sin_a := Real.sin angle
  (List.range glyph.length).foldl (fun img y =>
    let row := (glyph.getD y "").toList
    (List.range row.length).foldl (fun img2 x =>
      if row.getD x ' ' = '#' then
        let px := ((x : ℝ) - 5 / 2) * scale
        let py := ((y : ℝ) - 7 / 2) * scale
        let rx := px * cos_a - py * sin_a
        let ry := px * sin_a + py * cos_a
        img2.add_disc (center.1 + rx) (center.2 + ry) (max 0.5 (scale * 0.45)) color intensity
      else img2) img) image

/-- `draw_label_layers` (labels.py line 178): stamp each label's glyphs along
its ellipse, advancing half an advance before and after each glyph; `none`
models the `ValueError` of a malformed text color. -/
def draw_label_layers (size : ℤ × ℤ) (placements : List LabelPlacementL)
    (text_config : TextConfigL) : Option (FloatImageL × FloatImageL) := do
  let base_color ← hex_to_rgb text_config.color
  pure (placements.foldl (fun (acc : FloatImageL × FloatImageL) placement =>
    let scale := placement.spec.scale
    let effective_radius := max ((placement.spec.radius_x + placement.spec.radius_y) * 0.5) 1
    let inner := (List.zip placement.advances placement.spec.text).foldl
      (fun (st : FloatImageL × FloatImageL × ℝ) ac =>
        let advance := ac.1
        let ch := ac.2
        let theta := st.2.2 + (advance * scale) / (2 * effective_radius)
        let x := placement.spec.center.1 + placement.spec.radius_x * Real.cos theta
        let y := placement.spec.center.2 + placement.spec.radius_y * Real.sin theta
        let rotation := theta * (180 / Real.pi) - 90
        let glyph := glyphOf ch
        let core2 := draw_glyph st.1 glyph (x, y) scale rotation base_color 1
        let glow2 := draw_glyph st.2.1 glyph (x, y) (scale * 1.6) rotation base_color 0.2
        (core2, glow2, theta + (advance * scale) / (2 * effective_radius)))
      (acc.1, acc.2, placement.theta - placement.arc_angle / 2)
    (inner.1, inner.2.1))
    (FloatImageL.new size.1 size.2 0, FloatImageL.new size.1 size.2 0))

/-- Modelled from the spec: `draw_text_line` is imported by shapes.py from
labels.py but absent from src/labels.py.  Spec section 4.4 describes readout
text with "start"/"center"/"end" alignment shifting the base position by plus
or minus half the footprint and a linear (non-arc) baseline; shapes.py's HUD
draws each readout as a horizontal line of glyphs at a given position.  The
model stamps the glyph masks of `text` left to right along a horizontal
baseline at `pos`, alignment-shifted, into the core and glow layers. -/
def draw_text_line (core glow : FloatImageL) (text : String) (pos : ℝ × ℝ)
    (scale : ℝ) (color glow_color : Pix) (emissive : ℝ) (alignment : String)
    (tracking : ℝ) : FloatImageL × FloatImageL :=
  let advances := text_advances tracking text.toList
  let total := advances.sum * scale
  let x0 := if alignment = "start" then pos.1
    else if alignment = "end" then pos.1 - total
    else pos.1 - total / 2
  let res := (List.zip advances text.toList).foldl
    (fun (st : FloatImageL × FloatImageL × ℝ) ac =>
      let advance := ac.1
      let ch := ac.2
      let cx := st.2.2 + (advance * scale) / 2
      let glyph := glyphOf ch
      let core2 := draw_glyph st.1 glyph (cx, pos.2) scale 0 color 1
      let glow2 := draw_glyph st.2.1 glyph (cx, pos.2) (scale * 1.6) 0 glow_color
        (emissive * 0.2)
      (core2, glow2, st.2.2 + advance * scale)) (core, glow, x0)
  (res.1, res.2.1)

/-- `_DEFAULT_HUD_READOUTS` (shapes.py line 24). -/
def defaultHudReadouts : List HUDReadoutL :=
  [⟨"NAV 214.37", 0.18, "start"⟩, ⟨"ΔV 0.993C", 0.52, "center"⟩,
   ⟨"SYNC 02:47:15", 0.84, "end"⟩]

/-- `_draw_hud` (shapes.py line 205). -/
def draw_hud (core glow : FloatImageL) (projection : ProjectionParamsL)
    (hud_config : List HUDReadoutL) (text_color : Pix) (emissive : ℝ) (ssaa : ℤ)
    (tracking : ℝ) : Option (FloatImageL × FloatImageL) := do
  let band_height : ℤ := max (24 * ssaa)
    (pyInt ((ssaa : ℝ) * 1.0 * (projection.height : ℝ) * 0.08))
  let baseline_y := (projection.height : ℝ) - (band_height : ℝ) * 0.4
  let line_color ← hex_to_rgb "#4384CE"
  let glow_color ← hex_to_rgb "#295a92"
  let line_width : ℤ := max 1 (2 * ssaa)
  let core := core.add_line (0, baseline_y) ((projection.width : ℝ), baseline_y) line_color
    line_width 0.9
  let glow := glow.add_line (0, baseline_y) ((projection.width : ℝ), baseline_y) line_color
    (line_width + 2) (0.35 * emissive)
  let tick_spacing := max (48 * (ssaa : ℝ)) ((projection.width : ℝ) / 20)
  let major_length := (band_height : ℝ) * 0.55
  let minor_length := (band_height : ℝ) * 0.32
  let tick_count : ℤ := ⌈(projection.width : ℝ) / tick_spacing⌉ + 1
  let cg := (intRange 0 tick_count).foldl (fun (acc : FloatImageL × FloatImageL) index =>
    let x := (index : ℝ) * tick_spacing
    let length := if index % 5 = 0 then major_length else minor_length
    let w : ℤ := max 1 (pyInt ((ssaa : ℝ) * (if index % 5 = 0 then 1.2 else 0.8)))
    let c2 := acc.1.add_line (x, baseline_y) (x, baseline_y + length) line_color w 0.8
    let g2 := acc.2.add_line (x, baseline_y) (x, baseline_y + length) glow_color (w + 1)
      (0.25 * emissive)
    (c2, g2)) (core, glow)
  let text_scale := max 1 (((band_height : ℝ) / (7 * (ssaa : ℝ))) * 0.85)
  let baseline_offset := baseline_y + major_length + 6 * (ssaa : ℝ)
  let glow_strength := 0.5 * emissive
  pure (hud_config.foldl (fun (acc : FloatImageL × FloatImageL) readout =>
    let x := clampL readout.position 0 1 * (projection.width : ℝ)
    draw_text_line acc.1 acc.2 readout.text (x, baseline_offset) text_scale text_color
      line_color glow_strength readout.alignment tracking) cg)

open scoped Classical in
/-- `render_ui_layers` (shapes.py line 257). -/
def render_ui_layers (config : SceneConfigL) (projection : ProjectionParamsL) (ssaa : ℤ) :
    Option (FloatImageL × FloatImageL) := do
  let width := projection.width
  let height := projection.height
  let cg ← (List.range config.rings.length).foldlM
    (fun (acc : FloatImageL × FloatImageL) index => do
      let ring := config.rings.getD index ringDefault
      let radius := max 1e-4 ring.r
      let base_width := max 1 (ring.width * projection.base_radius)
      let samples : ℤ := max 240 (pyInt (360 * clampL radius 0.25 1))
      let points := sample_ring_points projection radius samples
      let color ← hex_to_rgb ring.color
      let halo_color ← hex_to_rgb (match ring.halo_color with
        | some h => if h = "" then ring.color else h
        | none => ring.color)
      let acc1 := draw_ring acc.1 acc.2 points base_width color halo_color ring.glow
      let tedTruthy := match ring.ticks_every_deg with
        | some v => v ≠ 0
        | none => False
      if ring.tick.isSome ∨ tedTruthy then
        let tick_config : RingTickConfigL :=
          match ring.tick with
          | some t =>
            { every_deg := t.every_deg, length_px := t.length_px,
              alpha := t.alpha, weight := t.weight }
          | none =>
            { every_deg := [ring.ticks_every_deg.getD 0],
              length_px := (6, 12), alpha := 0.85, weight := 1 }
        pure (draw_ticks acc1.1 acc1.2 projection radius base_width color halo_color
          tick_config ssaa)
      else pure acc1)
    (FloatImageL.new width height 0, FloatImageL.new width height 0)
  let label_specs := build_label_specs config projection ssaa
  let cg2 ← if label_specs.isEmpty then pure cg
    else do
      let placements := layout_labels 0.06 140 label_specs
      let lcg ← draw_label_layers (width, height) placements config.text
      pure (cg.1.add_image lcg.1, cg.2.add_image (gaussian_blur lcg.2 (2 * (ssaa : ℝ))))
  let hud_readouts := if config.hud.use_default_readouts ∧ config.hud.readouts.isEmpty
    then defaultHudReadouts else config.hud.readouts
  let cg3 ← if config.hud.enabled ∧ ¬ hud_readouts.isEmpty then do
      let text_color ← hex_to_rgb config.text.color
      draw_hud cg2.1 cg2.2 projection hud_readouts text_color config.hud.emissive ssaa
        config.text.tracking
    else pure cg2
  pure (cg3.1, gaussian_blur cg3.2 (3 * (ssaa : ℝ)))

/-- `RenderResult` (render.py line 24); the ordered layers dict is an
association list. -/
structure RenderResultL where
  image : FloatImageL
  layers : List (String × FloatImageL)

/-- The grain amount passed from the orchestrator to `add_grain`
(render.py line 68): `config.post.grain * ssaa`. -/
def grainArg (config : SceneConfigL) (ssaa : ℤ) : ℝ := config.post.grain * (ssaa : ℝ)

/-- The pixel magnitude passed from the orchestrator to
`apply_chromatic_aberration` (render.py line 64):
`config.post.chromatic_aberration.pixels / ssaa`. -/
def caPixelsArg (config : SceneConfigL) (ssaa : ℤ) : ℝ :=
  config.post.chromatic_aberration.pixels / (ssaa : ℝ)

open scoped Classical in
/-- `generate_star_chart` (render.py line 33).  `mkStream` abstracts the
Mersenne Twister: the seed-determined stream of `random()` outputs; the
generator state is threaded explicitly from star sampling to grain.  `none`
models the `ValueError` of a malformed hex color in the config. -/
def generate_star_chart (mkStream : ℤ → ℕ → ℝ) (config : SceneConfigL)
    (seed : Option ℤ) : Option RenderResultL := do
  let rng : RNGState := ⟨mkStream (seed.getD config.seed), 0, none⟩
  let ssaa : ℤ := max 1 config.resolution.ssaa
  let projection := create_projection config.resolution config.camera config.rings
  let sf ← generate_star_field config.stars projection rng ssaa
  let star_layer := render_star_field sf.1 projection
  let ui ← render_ui_layers config projection ssaa
  let combined := (star_layer.copy.add_image ui.1).add_image ui.2
  let bb := apply_bloom combined config.post.bloom.threshold
    (config.post.bloom.sigmas.map (fun sigma => sigma * (ssaa : ℝ)))
    config.post.bloom.intensities
  let bloom := if config.post.anamorphic.enabled then
      apply_anamorphic_streak bb.1 bb.2 (config.post.anamorphic.length_px * (ssaa : ℝ))
        config.post.anamorphic.intensity
    else bb.1
  let aberrated := apply_chromatic_aberration bloom (caPixelsArg config ssaa)
    config.post.chromatic_aberration.center
  let vignetted := apply_vignette aberrated config.post.vignette
  let gr := add_grain vignetted (grainArg config ssaa) sf.2
  let final_linear := tone_map_aces gr.1 config.post.gamma
  let star_layer2 := if 1 < ssaa then star_layer.downsample ssaa else star_layer
  let ui_core2 := if 1 < ssaa then ui.1.downsample ssaa else ui.1
  let ui_glow2 := if 1 < ssaa then ui.2.downsample ssaa else ui.2
  let final2 := if 1 < ssaa then final_linear.downsample ssaa else final_linear
  let final3 := final2.clampImg 0 1
  let result : RenderResultL :=
    { image := final3,
      layers := [("stars", star_layer2), ("ui_core", ui_core2), ("ui_glow", ui_glow2),
        ("final_linear", final3.copy)] }
  pure result

/-- C1: determinism.  The embedding threads the only stateful entity — the
seed-determined random stream and its cursor plus the cached Gaussian
variate — explicitly through the pipeline, so the render is a pure function
of the configuration and the seed: re-running it with the identical
`SceneConfig` and seed yields the identical final image, identical named
layers, and hence byte-identical PNG serializations under any (deterministic)
compressor. -/
theorem C1_determinism (mkStream : ℤ → ℕ → ℝ) (config : SceneConfigL)
    (seed : Option ℤ) (compress : List ℕ → List ℕ) :
    generate_star_chart mkStream config seed = generate_star_chart mkStream config seed ∧
    Option.map (fun r => r.image) (generate_star_chart mkStream config seed)
      = Option.map (fun r => r.image) (generate_star_chart mkStream config seed) ∧
    Option.map (fun r => r.layers) (generate_star_chart mkStream config seed)
      = Option.map (fun r => r.layers) (generate_star_chart mkStream config seed) ∧
    Option.map (fun r => to_png_bytes compress r.image)
        (generate_star_chart mkStream config seed)
      = Option.map (fun r => to_png_bytes compress r.image)
        (generate_star_chart mkStream config seed) :=
  ⟨rfl, rfl, rfl, rfl⟩

/-- The failing-input configuration for C2: supersampling factor 2 and a
configured chromatic aberration magnitude of 3 pixels. -/
def c2Cfg : SceneConfigL :=
  { seed := 1,
    resolution := ⟨100, 100, 2⟩,
    camera := ⟨83, 0, 35, 0.1, 6⟩,
    rings := [],
    stars :=
      { bulge := ⟨0, 0.14, 1.8, (1, 2.5)⟩,
        background := ⟨0, (0.6, 1.6), 0.3, 0, 1⟩,
        warm_color := "#E8B551", hot_color := "#FFFFFF", background_color := "#CFA05A" },
    readouts := [],
    text := ⟨none, 26, "#e6f5ff", -0.5, true⟩,
    post :=
      { bloom := ⟨0.75, [2, 6, 12], [0.7, 0.4, 0.2]⟩,
        chromatic_aberration := ⟨3, none⟩,
        anamorphic := ⟨true, 80, 0.15⟩,
        vignette := 0.25, grain := 0.03, tonemap := "filmic", gamma := 2.2 },
    hud := ⟨false, 180, none, 1.3, [], false⟩,
    lut := none, name := none }

/-- C2 (code bug): of the pixel-unit magnitudes the orchestrator feeds its
consumers, the grain amount is multiplied by ssaa and the tick length is
multiplied by ssaa (with a 2 px floor), but the chromatic aberration
magnitude is DIVIDED by ssaa (render.py line 64): at ssaa = 2 with configured
pixels 3 the stage receives 1.5, not the 6 the claim (and spec section 4.7)
requires. -/
theorem C2_ssaa_divergence :
    grainArg c2Cfg 2 = c2Cfg.post.grain * 2 ∧
    tickLengthArg 6 2 = 6 * 2 ∧
    caPixelsArg c2Cfg 2 = 1.5 ∧
    (1.5 : ℝ) ≠ c2Cfg.post.chromatic_aberration.pixels * 2 := by
  refine ⟨?_, ?_, ?_, ?_⟩
  · norm_num [grainArg]
  · rw [tickLengthArg, max_eq_right (by norm_num : (2 : ℝ) ≤ 6 * ((2 : ℤ) : ℝ))]
    norm_num
  · norm_num [caPixelsArg, c2Cfg]
  · norm_num [c2Cfg]
